import Mathlib

/-!
Shallow embedding of the veles.znicz forward layers (`src/all2all.py`,
`src/conv.py`) and of the convolution gradient-descent unit exercised by
`src/tests/unit/test_gd_conv.py`.

Numeric values are modelled exactly over `ℚ`.  The transcendental activation
primitives (`numpy.tanh`, `numpy.exp`, `math.tanh`, `math.exp`, `math.log`)
are passed in as abstract function parameters, so every definition stays
executable and the algebraic structure of the code is captured exactly.
Definitions whose doc comment starts with `Modelled from the spec:` embed
parts of the repository that are not present under `src/` (the OpenCL
accelerator kernels and `gd_conv.py`); everything else is translated from
the Python source.
-/

/-- numpy `argmax` over a list of rationals: the index of the first maximal
element (used by `All2AllSoftmax.cpu_apply_exp`, src/all2all.py line 315). -/
def argmaxIdx (l : List ℚ) : ℕ :=
  (List.range l.length).foldl (fun best i => if l.getD best 0 < l.getD i 0 then i else best) 0

/-- Inputs of an `All2All` forward run: `input` is the batch already reshaped
to `batch × fanIn` (src/all2all.py lines 206-207), `weights` is indexed
`(out, in)` when not transposed and `(in, out)` when transposed. -/
structure A2AIn where
  batch : ℕ
  fanIn : ℕ
  fanOut : ℕ
  input : ℕ → ℕ → ℚ
  weights : ℕ → ℕ → ℚ
  bias : ℕ → ℚ
  weightsTransposed : Bool

/-- One cell of `All2All.cpu_run` (src/all2all.py lines 200-213):
`numpy.dot(a, b)` with `b = weights` transposed unless `weights_transposed`,
then `+= bias`. -/
def a2aLinearCell (p : A2AIn) (s o : ℕ) : ℚ :=
  (∑ i ∈ Finset.range p.fanIn,
    p.input s i * (if p.weightsTransposed then p.weights i o else p.weights o i)) + p.bias o

/-- `All2All.cpu_run` output as a `batch × fanOut` list of rows. -/
def a2aCpuRun (p : A2AIn) : List (List ℚ) :=
  (List.range p.batch).map fun s => (List.range p.fanOut).map fun o => a2aLinearCell p s o

/-- `All2AllTanh.cpu_run` (src/all2all.py lines 234-244): after the linear
run, `output *= 0.6666; numpy.tanh(output, output); output *= 1.7159`. -/
def a2aTanhCpuRun (tanhF : ℚ → ℚ) (p : A2AIn) : List (List ℚ) :=
  (a2aCpuRun p).map fun row => row.map fun v => tanhF (v * (6666/10000)) * (17159/10000)

/-- Per-row body of `All2AllSoftmax.cpu_apply_exp` (src/all2all.py lines
313-321): `im = sample.argmax(); m = sample[im]; sample -= m;
numpy.exp(sample, sample); sample /= sample.sum()`. -/
def softmaxRowCpu (expF : ℚ → ℚ) (row : List ℚ) : List ℚ :=
  let m := row.getD (argmaxIdx row) 0
  let e := row.map fun x => expF (x - m)
  e.map fun x => x / e.sum

/-- `All2AllSoftmax.cpu_run` = linear `cpu_run` followed by `cpu_apply_exp`;
returns the output rows and the `max_idx` buffer. -/
def a2aSoftmaxCpuRun (expF : ℚ → ℚ) (p : A2AIn) : List (List ℚ) × List ℕ :=
  ((a2aCpuRun p).map (softmaxRowCpu expF), (a2aCpuRun p).map argmaxIdx)

/-- Modelled from the spec: §4.2 accelerator path of the all-to-all layer
(the OpenCL kernel source `forward.cl` is not under `src/`).  "Linear
transform: `output = input · weightsᵗ + bias` if weights stored as (out,in);
`output = input · weights + bias` if stored transposed." -/
def a2aSpecGpuLinear (p : A2AIn) : List (List ℚ) :=
  (List.range p.batch).map fun s => (List.range p.fanOut).map fun o =>
    (∑ i ∈ Finset.range p.fanIn,
      p.input s i * (if p.weightsTransposed then p.weights i o else p.weights o i)) + p.bias o

/-- Modelled from the spec: §4.2 accelerator tanh activation,
"Tanh: `output ← 1.7159 · tanh(0.6666 · output)`". -/
def a2aSpecGpuTanh (tanhF : ℚ → ℚ) (p : A2AIn) : List (List ℚ) :=
  (a2aSpecGpuLinear p).map fun row => row.map fun v => (17159/10000) * tanhF ((6666/10000) * v)

/-- Modelled from the spec: §4.2 accelerator softmax second kernel pass,
"per sample independently: find the maximum value and its index (recorded in
the argmax buffer), subtract the max from all elements, exponentiate, divide
by the row sum". -/
def specSoftmaxRow (expF : ℚ → ℚ) (row : List ℚ) : List ℚ :=
  let m := row.getD (argmaxIdx row) 0
  let s := (row.map fun x => expF (x - m)).sum
  row.map fun x => expF (x - m) / s

/-- Modelled from the spec: accelerator path of the softmax all-to-all layer
(linear transform, then the stabilized exponential-normalize pass). -/
def a2aSpecGpuSoftmax (expF : ℚ → ℚ) (p : A2AIn) : List (List ℚ) × List ℕ :=
  ((a2aSpecGpuLinear p).map (specSoftmaxRow expF), (a2aSpecGpuLinear p).map argmaxIdx)

/-- Geometry of a convolutional layer (`Conv`, src/conv.py): batch size,
input height/width/channels, kernel count and size, virtual padding
(left, top, right, bottom) and sliding (x, y). -/
structure ConvGeom where
  batch : ℕ
  sy : ℕ
  sx : ℕ
  nch : ℕ
  nKernels : ℕ
  kx : ℕ
  ky : ℕ
  padL : ℕ
  padT : ℕ
  padR : ℕ
  padB : ℕ
  slideX : ℕ
  slideY : ℕ

/-- Output height `ny = (sy_full - ky) // sliding[1] + 1` with Python floor
division (src/conv.py lines 260-262; a kernel taller than the padded input
yields an empty range, hence the `Int.fdiv` and final `toNat`). -/
def convNy (g : ConvGeom) : ℕ :=
  (((g.padT + g.sy + g.padB : ℤ) - g.ky).fdiv g.slideY + 1).toNat

/-- Output width `nx = (sx_full - kx) // sliding[0] + 1` (src/conv.py). -/
def convNx (g : ConvGeom) : ℕ :=
  (((g.padL + g.sx + g.padR : ℤ) - g.kx).fdiv g.slideX + 1).toNat

/-- `in_i1 = min(max(full_i1 - padding, 0), dim)` (src/conv.py lines
274-277); with truncated ℕ subtraction the `max(·,0)` is implicit. -/
def clipLo (fullStart pad dim : ℕ) : ℕ := min (fullStart - pad) dim

/-- `in_i2 = min(max(full_i2 - padding, 0), dim)` where
`full_i2 = full_i1 + klen` (src/conv.py lines 275-277). -/
def clipHi (fullStart klen pad dim : ℕ) : ℕ := min (fullStart + klen - pad) dim

/-- `cut_i1 = in_i1 - full_i1 + padding` (src/conv.py lines 278-281); the
Python value is negative exactly when the clipped range is empty, in which
case it is never used, so ℕ truncation is harmless. -/
def cutLo (fullStart pad dim : ℕ) : ℕ := clipLo fullStart pad dim + pad - fullStart

/-- Number of valid input rows/columns of one window axis,
`in_i2 - in_i1`. -/
def axisCnt (fullStart klen pad dim : ℕ) : ℕ :=
  clipHi fullStart klen pad dim - clipLo fullStart pad dim

/-- Valid row count of output window row `i`. -/
def cntI (g : ConvGeom) (i : ℕ) : ℕ := axisCnt (i * g.slideY) g.ky g.padT g.sy

/-- Valid column count of output window column `j`. -/
def cntJ (g : ConvGeom) (j : ℕ) : ℕ := axisCnt (j * g.slideX) g.kx g.padL g.sx

/-- The guard of the host convolution loop
(`if in_i2 - in_i1 > 0 or in_j2 - in_j1 > 0`, src/conv.py line 282). -/
def posNonEmpty (g : ConvGeom) (i j : ℕ) : Prop := 0 < cntI g i ∨ 0 < cntJ g j

instance (g : ConvGeom) (i j : ℕ) : Decidable (posNonEmpty g i j) := by
  unfold posNonEmpty; exact inferInstance

/-- The clipped dot product `numpy.sum(numpy.multiply(cut.ravel(),
cutted_kernel.ravel()))` of `Conv.cpu_run` (src/conv.py lines 283-290):
input patch `[in_i1:in_i2, in_j1:in_j2]` (all channels) against the kernel
footprint `[cut_i1:cut_i2, cut_j1:cut_j2, :]` of the `ky × kx × nch`
reshaped kernel row. -/
def convCellDot (g : ConvGeom) (w : ℕ → ℕ → ℚ) (inp : ℕ → ℕ → ℕ → ℕ → ℚ) (b k i j : ℕ) : ℚ :=
  ∑ t ∈ Finset.range (cntI g i), ∑ u ∈ Finset.range (cntJ g j), ∑ c ∈ Finset.range g.nch,
    inp b (clipLo (i * g.slideY) g.padT g.sy + t) (clipLo (j * g.slideX) g.padL g.sx + u) c *
      w k (((cutLo (i * g.slideY) g.padT g.sy + t) * g.kx +
            (cutLo (j * g.slideX) g.padL g.sx + u)) * g.nch + c)

/-- The `s_activation` selector of the convolution layers
(`ACTIVATION_LINEAR` / `ACTIVATION_TANH` / `ACTIVATION_RELU`). -/
inductive ConvAct where
  | linear
  | tanh
  | relu
deriving DecidableEq

/-- The activation branch of `Conv.cpu_run` (src/conv.py lines 293-310)
applied to `conv + bias[k]`: linear keeps the value, tanh computes
`math.tanh(v * 0.6666) * 1.7159`, "RELU" computes
`math.log(math.exp(v) + 1)` unless `v > 15`. -/
def convActApply (act : ConvAct) (tanhF expF logF : ℚ → ℚ) (v : ℚ) : ℚ :=
  match act with
  | .linear => v
  | .tanh => tanhF (v * (6666/10000)) * (17159/10000)
  | .relu => if 15 < v then v else logF (expF v + 1)

/-- Final value written by `Conv.cpu_run` into output cell `(b, i, j, k)`
when the window guard holds. -/
def convCellOut (g : ConvGeom) (act : ConvAct) (tf ef lf : ℚ → ℚ) (w : ℕ → ℕ → ℚ)
    (bias : ℕ → ℚ) (inp : ℕ → ℕ → ℕ → ℕ → ℚ) (b k i j : ℕ) : ℚ :=
  convActApply act tf ef lf (convCellDot g w inp b k i j + bias k)

/-- The inner position scan of `Conv.cpu_run` for one `(batch, kernel)`
pair (src/conv.py lines 269-312): the loop ranges over all `(i, j)` through
a single generator, writes the activated dot product when the guard holds
and otherwise `break`s out of the whole remaining scan. -/
def convScanPos (g : ConvGeom) (act : ConvAct) (tf ef lf : ℚ → ℚ) (w : ℕ → ℕ → ℚ)
    (bias : ℕ → ℚ) (inp : ℕ → ℕ → ℕ → ℕ → ℚ) (b k : ℕ) :
    List (ℕ × ℕ) → (ℕ → ℕ → ℕ → ℕ → ℚ) → ℕ → ℕ → ℕ → ℕ → ℚ
  | [], out => out
  | (i, j) :: rest, out =>
    if 0 < cntI g i ∨ 0 < cntJ g j then
      convScanPos g act tf ef lf w bias inp b k rest
        (fun b' i' j' k' =>
          if b' = b ∧ i' = i ∧ j' = j ∧ k' = k then
            convCellOut g act tf ef lf w bias inp b k i j
          else out b' i' j' k')
    else out

/-- Value (if any) that a scan of the given position list leaves in cell
`(i', j')` of the `(b, k)` plane; mirrors `convScanPos`. -/
def convScanVal (g : ConvGeom) (act : ConvAct) (tf ef lf : ℚ → ℚ) (w : ℕ → ℕ → ℚ)
    (bias : ℕ → ℚ) (inp : ℕ → ℕ → ℕ → ℕ → ℚ) (b k : ℕ) :
    List (ℕ × ℕ) → ℕ × ℕ → Option ℚ
  | [], _ => none
  | (i, j) :: rest, q =>
    if 0 < cntI g i ∨ 0 < cntJ g j then
      if q = (i, j) then some (convCellOut g act tf ef lf w bias inp b k i j)
      else convScanVal g act tf ef lf w bias inp b k rest q
    else none

/-- The row-major position list `((i, j) for i in range(ny) for j in
range(nx))` of `Conv.cpu_run`. -/
def convPositions (g : ConvGeom) : List (ℕ × ℕ) :=
  (List.range (convNy g)).flatMap fun i => (List.range (convNx g)).map fun j => (i, j)

/-- The `for k, kernel in enumerate(self.weights.mem)` loop of
`Conv.cpu_run` for a fixed batch element. -/
def convKernelPass (g : ConvGeom) (act : ConvAct) (tf ef lf : ℚ → ℚ) (w : ℕ → ℕ → ℚ)
    (bias : ℕ → ℚ) (inp : ℕ → ℕ → ℕ → ℕ → ℚ) (b : ℕ)
    (out : ℕ → ℕ → ℕ → ℕ → ℚ) : ℕ → ℕ → ℕ → ℕ → ℚ :=
  (List.range g.nKernels).foldl
    (fun o k => convScanPos g act tf ef lf w bias inp b k (convPositions g) o) out

/-- `Conv.cpu_run` (src/conv.py lines 251-312).  The outer loop iterates
over `(batch, ch)` pairs but ignores `ch`, so each batch element is
processed once per channel (the repeats are idempotent); with zero channels
the body never runs. -/
def convCpuRun (g : ConvGeom) (act : ConvAct) (tf ef lf : ℚ → ℚ) (w : ℕ → ℕ → ℚ)
    (bias : ℕ → ℚ) (inp : ℕ → ℕ → ℕ → ℕ → ℚ)
    (out0 : ℕ → ℕ → ℕ → ℕ → ℚ) : ℕ → ℕ → ℕ → ℕ → ℚ :=
  ((List.range g.batch).flatMap fun b => (List.range g.nch).map fun _ => b).foldl
    (fun o b => convKernelPass g act tf ef lf w bias inp b o) out0

/-- Spec §4.3 lower bound of the valid input range: intersect
`[full_start, full_start + kernel_dim)` with `[0, input_dim)`. -/
def specLoZ (fs : ℤ) : ℤ := max fs 0

/-- Spec §4.3 upper bound of the valid input range. -/
def specHiZ (fs : ℤ) (klen dim : ℕ) : ℤ := min (fs + klen) dim

/-- Number of valid positions of one axis per the spec's window bounds. -/
def specCnt (fs : ℤ) (klen dim : ℕ) : ℕ := (specHiZ fs klen dim - specLoZ fs).toNat

/-- Modelled from the spec: §4.3 convolution window dot product as computed
by the accelerator kernel (`conv.cl` is not under `src/`): "compute the dot
product between the kernel's weight vector and the corresponding input
patch, where the patch is clipped against the actual input bounds …
`full_start = out_pos × stride − pad_before`; intersect
`[full_start, full_start+kernel_dim)` with `[0, input_dim)` to get the valid
input range, and compute the corresponding offset range inside the kernel
weight footprint". -/
def specConvCell (g : ConvGeom) (w : ℕ → ℕ → ℚ) (inp : ℕ → ℕ → ℕ → ℕ → ℚ) (b k i j : ℕ) : ℚ :=
  ∑ t ∈ Finset.range (specCnt ((i * g.slideY : ℤ) - g.padT) g.ky g.sy),
    ∑ u ∈ Finset.range (specCnt ((j * g.slideX : ℤ) - g.padL) g.kx g.sx),
      ∑ c ∈ Finset.range g.nch,
        inp b ((specLoZ ((i * g.slideY : ℤ) - g.padT)).toNat + t)
              ((specLoZ ((j * g.slideX : ℤ) - g.padL)).toNat + u) c *
          w k (((specLoZ ((i * g.slideY : ℤ) - g.padT) + t -
                   ((i * g.slideY : ℤ) - g.padT)).toNat * g.kx +
                (specLoZ ((j * g.slideX : ℤ) - g.padL) + u -
                   ((j * g.slideX : ℤ) - g.padL)).toNat) * g.nch + c)

/-- Modelled from the spec: §4.2 activation formulas as written in the spec
("Tanh: `output ← 1.7159 · tanh(0.6666 · output)`", "Softplus: `output`
if `output > 15`, else `log(1 + exp(output))`"). -/
def specActApply (act : ConvAct) (tanhF expF logF : ℚ → ℚ) (v : ℚ) : ℚ :=
  match act with
  | .linear => v
  | .tanh => (17159/10000) * tanhF ((6666/10000) * v)
  | .relu => if 15 < v then v else logF (1 + expF v)

/-- Modelled from the spec: the accelerator convolution forward pass defines
every output cell `(b, i, j, k)` of the `batch × ny × nx × n_kernels` output
buffer ("For every batch element, every output spatial position, every
kernel …, add bias per kernel, then apply the same ActivationKind
formulas"). -/
def specConvGpuRun (g : ConvGeom) (act : ConvAct) (tf ef lf : ℚ → ℚ) (w : ℕ → ℕ → ℚ)
    (bias : ℕ → ℚ) (inp : ℕ → ℕ → ℕ → ℕ → ℚ)
    (out0 : ℕ → ℕ → ℕ → ℕ → ℚ) : ℕ → ℕ → ℕ → ℕ → ℚ := fun b i j k =>
  if b < g.batch ∧ i < convNy g ∧ j < convNx g ∧ k < g.nKernels then
    specActApply act tf ef lf (specConvCell g w inp b k i j + bias k)
  else out0 b i j k

/-- Modelled from the spec: §4.4 `err_h` of `GradientDescentConv`
(`gd_conv.py` is not under `src/`): "computed by correlating `err_y` against
the kernel weights using the *same* padding/stride window mapping as the
forward pass, applied in reverse (each input position accumulates
contributions from every output position whose forward window covered it,
weighted by the corresponding kernel weight)".  `errY b p k` is the upstream
error at flattened output position `p = i·nx + j`, kernel `k`. -/
def gdErrH (g : ConvGeom) (w : ℕ → ℕ → ℚ) (errY : ℕ → ℕ → ℕ → ℚ) (b y x c : ℕ) : ℚ :=
  ∑ i ∈ Finset.range (convNy g), ∑ j ∈ Finset.range (convNx g), ∑ k ∈ Finset.range g.nKernels,
    if (i * g.slideY : ℤ) - g.padT ≤ y ∧ (y : ℤ) < (i * g.slideY : ℤ) - g.padT + g.ky ∧
       (j * g.slideX : ℤ) - g.padL ≤ x ∧ (x : ℤ) < (j * g.slideX : ℤ) - g.padL + g.kx then
      errY b (i * convNx g + j) k *
        w k ((((y : ℤ) - ((i * g.slideY : ℤ) - g.padT)).toNat * g.kx +
              ((x : ℤ) - ((j * g.slideX : ℤ) - g.padL)).toNat) * g.nch + c)
    else 0

/-- Modelled from the spec: the unrolled input patch feeding the weight
gradient ("correlate(err_y, input_patches)", §4.4): entry `m` of the patch
at flattened output position `p`, with virtual zero padding. -/
def gdPatch (g : ConvGeom) (inp : ℕ → ℕ → ℕ → ℕ → ℚ) (b p m : ℕ) : ℚ :=
  let i := p / convNx g
  let j := p % convNx g
  let ki := m / (g.kx * g.nch)
  let kj := (m % (g.kx * g.nch)) / g.nch
  let c := m % g.nch
  let yy : ℤ := (i * g.slideY : ℤ) - g.padT + ki
  let xx : ℤ := (j * g.slideX : ℤ) - g.padL + kj
  if 0 ≤ yy ∧ yy < (g.sy : ℤ) ∧ 0 ≤ xx ∧ xx < (g.sx : ℤ) then inp b yy.toNat xx.toNat c else 0

/-- Modelled from the spec: §4.4 weight gradient before scaling,
`correlate(err_y, input_patches) (k, m) = Σ_{b,p} err_y[b,p,k] ·
patch[b,p,m]`. -/
def gdGradWeights (g : ConvGeom) (inp : ℕ → ℕ → ℕ → ℕ → ℚ) (errY : ℕ → ℕ → ℕ → ℚ)
    (k m : ℕ) : ℚ :=
  ∑ b ∈ Finset.range g.batch, ∑ p ∈ Finset.range (convNy g * convNx g),
    errY b p k * gdPatch g inp b p m

/-- Modelled from the spec: §4.4 weight update, "Δweights =
−(learning_rate / batch_size) · correlate(err_y, input_patches) −
(learning_rate · weight_decay) · weights; applied additively". -/
def gdWeightsUpd (g : ConvGeom) (inp : ℕ → ℕ → ℕ → ℕ → ℚ) (errY : ℕ → ℕ → ℕ → ℚ)
    (w : ℕ → ℕ → ℚ) (lr lam : ℚ) (k m : ℕ) : ℚ :=
  w k m + (-(lr / (g.batch : ℚ)) * gdGradWeights g inp errY k m - (lr * lam) * w k m)

/-- Modelled from the spec: §4.4 bias update, "Δbias =
−(learning_rate / batch_size) · Σ(err_y over batch and spatial positions);
applied additively". -/
def gdBiasUpd (g : ConvGeom) (errY : ℕ → ℕ → ℕ → ℚ) (bias : ℕ → ℚ) (lr : ℚ) (k : ℕ) : ℚ :=
  bias k + (-(lr / (g.batch : ℚ)) *
    ∑ b ∈ Finset.range g.batch, ∑ p ∈ Finset.range (convNy g * convNx g), errY b p k)

/-- Geometry of the `test_err_h` fixture of
src/tests/unit/test_gd_conv.py: batch 1, input 5×5×1, 2 kernels of 3×3,
no padding, stride 1. -/
def gdFixGeom : ConvGeom :=
  { batch := 1, sy := 5, sx := 5, nch := 1, nKernels := 2, kx := 3, ky := 3,
    padL := 0, padT := 0, padR := 0, padB := 0, slideX := 1, slideY := 1 }

/-- Fixture input image (`inp.v`). -/
def gdFixInputList : List (List ℚ) :=
  [[-1, 0, 2, 0, 3], [0, 1, -2, 1, 2], [2, 0, 1, 1, 0], [-1, 1, 1, 0, 2], [1, 0, 1, 0, 1]]

/-- Fixture input as a function. -/
def gdFixInput : ℕ → ℕ → ℕ → ℕ → ℚ := fun _ y x _ => (gdFixInputList.getD y []).getD x 0

/-- Fixture weights. -/
def gdFixWeightsList : List (List ℚ) :=
  [[-1, -1, 4, 1, 8, -1, -1, 3, 2], [2, 1, -1, 3, 0, 1, 4, 1, 3]]

/-- Fixture weights as a function. -/
def gdFixWeights : ℕ → ℕ → ℚ := fun k m => (gdFixWeightsList.getD k []).getD m 0

/-- Fixture bias. -/
def gdFixBias : ℕ → ℚ := fun k => ([10, -10] : List ℚ).getD k 0

/-- Fixture upstream error `err_y` (9 output positions × 2 kernels). -/
def gdFixErrYList : List (List ℚ) :=
  [[-1, 3], [8, 2], [0, 1], [4, -1], [-1, 2], [0, 1], [-2, 3], [1, 2], [1, 1]]

/-- Fixture `err_y` as a function. -/
def gdFixErrY : ℕ → ℕ → ℕ → ℚ := fun _ p k => (gdFixErrYList.getD p []).getD k 0

/-- Published literal expected `err_h` (`t` in the test). -/
def gdFixT : List (List ℚ) :=
  [[7, 0, -11, 31, -1], [2, 6, 93, -11, 0], [22, 45, 18, 28, 7],
   [-1, 11, 25, 14, 3], [14, 4, 13, 12, 5]]

/-- Literal unrolled-patch matrix `a` of the test (9 positions × 9 kernel
entries). -/
def gdFixA : List (List ℚ) :=
  [[-1, 0, 2, 0, 1, -2, 2, 0, 1], [0, 2, 0, 1, -2, 1, 0, 1, 1],
   [2, 0, 3, -2, 1, 2, 1, 1, 0], [0, 1, -2, 2, 0, 1, -1, 1, 1],
   [1, -2, 1, 0, 1, 1, 1, 1, 0], [-2, 1, 2, 1, 1, 0, 1, 0, 2],
   [2, 0, 1, -1, 1, 1, 1, 0, 1], [0, 1, 1, 1, 1, 0, 0, 1, 0],
   [1, 1, 0, 1, 0, 2, 1, 0, 1]]

/-- The fixture's `err_h` computed by the spec-modelled backward pass, as a
5×5 table. -/
def gdFixErrHList : List (List ℚ) :=
  (List.range 5).map fun y => (List.range 5).map fun x =>
    gdErrH gdFixGeom gdFixWeights gdFixErrY 0 y x 0

/-- Error raised during layer initialization
(`veles.error.ErrBadFormat`). -/
inductive InitErr where
  | badFormat
deriving DecidableEq

/-- Transposed reshape of a flat `rows × cols` weight buffer
(src/all2all.py lines 92-100, src/conv.py lines 134-137): element `n` of
the transposed flat buffer is element `(n % rows) · cols + n / rows` of the
original. -/
def transposeFlat (rows cols : ℕ) (l : List ℚ) : List ℚ :=
  (List.range (rows * cols)).map fun n => l.getD ((n % rows) * cols + n / rows) 0

/-- The reallocation test shared by every buffer of `initialize`
(`buf is None or buf.size != n`). -/
def bufNeed {α : Type} (cur : Option (List α)) (n : ℕ) : Bool :=
  match cur with
  | some v => v.length != n
  | none => true

/-- Which `All2All` subclass is being initialized (they differ only in
`get_weights_amplitude` and in the softmax `max_idx` buffer). -/
inductive A2AKind where
  | plain
  | tanh
  | softmax
deriving DecidableEq

/-- Construction-time configuration of an `All2All` layer plus the shape of
the currently attached input (`input.v.shape[0]` and `input.v.size`). -/
structure A2AConf where
  batch : ℕ
  inputSize : ℕ
  outputShape : ℕ
  weightsAmplitude : Option ℚ
  inputMaxvle : ℚ
  weightsTransposed : Bool

/-- Buffers owned by an `All2All` layer.  `outputMaxvle` models the
spec's DualBuffer `supposed_max_value` attribute of the output buffer
(`formats.py` is not under `src/`; the spec describes it as "a
`supposed_max_value` scalar bound used only for weight-scale heuristics").
`randCalls` counts invocations of the random-fill collaborator. -/
structure A2ABufs where
  weights : Option (List ℚ)
  bias : Option (List ℚ)
  output : Option (List ℚ)
  maxIdx : Option (List ℕ)
  outputMaxvle : Option ℚ
  randCalls : ℕ

/-- `input.v.size // input.v.shape[0]`. -/
def a2aFanIn (c : A2AConf) : ℕ := c.inputSize / c.batch

/-- `n_weights = fan_in * numpy.prod(output_shape)`
(src/all2all.py lines 81-82). -/
def a2aNWeights (c : A2AConf) : ℕ := a2aFanIn c * c.outputShape

/-- `get_weights_amplitude` of the three classes (src/all2all.py lines
68-75, 230-232, 275-277). -/
def a2aGetWeightsAmplitude (kind : A2AKind) (c : A2AConf) : ℚ :=
  match kind with
  | .tanh => 9 / (c.inputMaxvle * (6666/10000)) / (a2aFanIn c : ℚ)
  | _ => 9 / c.inputMaxvle / (a2aFanIn c : ℚ)

/-- The weights amplitude actually used: the construction-time override or
`min(get_weights_amplitude(), 0.05)` (src/all2all.py lines 78-80). -/
def a2aUsedAmplitude (kind : A2AKind) (c : A2AConf) : ℚ :=
  c.weightsAmplitude.getD (min (a2aGetWeightsAmplitude kind c) (1/20))

/-- Fresh weights buffer: `rand.fill(zeros(n), -amp, amp)` followed by the
optional transposed reshape (src/all2all.py lines 84-100). -/
def a2aFreshWeights (fillU : ℕ → ℕ → ℚ → ℚ → List ℚ) (kind : A2AKind) (c : A2AConf)
    (rc : ℕ) : List ℚ :=
  let amp := a2aUsedAmplitude kind c
  let f := fillU rc (a2aNWeights c) (-amp) amp
  if c.weightsTransposed then transposeFlat c.outputShape (a2aFanIn c) f else f

/-- `All2All.initialize` / `All2AllSoftmax.initialize` buffer management
(src/all2all.py lines 77-120 and 279-294; the OpenCL program build that
follows is device-only).  Each buffer is reallocated and refilled exactly
when missing or of the wrong element count; the softmax subclass
additionally manages `max_idx`.  There is no raise statement anywhere on
this path. -/
def a2aInitialize (fillU : ℕ → ℕ → ℚ → ℚ → List ℚ) (kind : A2AKind) (c : A2AConf)
    (st : A2ABufs) : A2ABufs :=
  let nW := a2aNWeights c
  let amp := a2aUsedAmplitude kind c
  let wNeed := bufNeed st.weights nW
  let w := if wNeed then a2aFreshWeights fillU kind c st.randCalls
           else st.weights.getD []
  let rc1 := if wNeed then st.randCalls + 1 else st.randCalls
  let bNeed := bufNeed st.bias c.outputShape
  let bv := if bNeed then fillU rc1 c.outputShape (-amp) amp else st.bias.getD []
  let rc2 := if bNeed then rc1 + 1 else rc1
  let outLen := c.batch * c.outputShape
  let oNeed := bufNeed st.output outLen
  let ov := if oNeed then List.replicate outLen (0 : ℚ) else st.output.getD []
  let mi := match kind with
    | .softmax =>
      match st.maxIdx with
      | some m0 => if m0.length = c.batch then some m0 else some (List.replicate c.batch (0 : ℕ))
      | none => some (List.replicate c.batch (0 : ℕ))
    | _ => st.maxIdx
  { weights := some w, bias := some bv, output := some ov, maxIdx := mi,
    outputMaxvle := st.outputMaxvle, randCalls := rc2 }

/-- `All2AllSoftmax.initialize` with an explicit error slot: the source
contains no raise statement, so no `BadFormat` (or any other) failure can be
produced on this path. -/
def a2aSoftmaxInitializeE (fillU : ℕ → ℕ → ℚ → ℚ → List ℚ) (c : A2AConf) (st : A2ABufs) :
    Option InitErr × A2ABufs :=
  (none, a2aInitialize fillU .softmax c st)

/-- Construction-time configuration of a `Conv` layer.  `geom.nch` is the
channel count derived from the attached input
(`input.mem.size // (batch * sx * sy)`, src/conv.py lines 114-115). -/
structure ConvConf where
  geom : ConvGeom
  weightsFilling : String
  biasFilling : String
  weightsStddev : Option ℚ
  biasStddev : Option ℚ
  weightsTransposed : Bool
  supposedMaxvle : ℚ
  isComplex : Bool

/-- Buffers owned by a `Conv` layer; see `A2ABufs` for the `outputMaxvle`
and `randCalls` conventions. -/
structure ConvBufs where
  weights : Option (List ℚ)
  bias : Option (List ℚ)
  output : Option (List ℚ)
  outputMaxvle : Option ℚ
  randCalls : ℕ

/-- `n_weights = n_kernels * kx * ky * n_channels`
(src/conv.py line 116). -/
def convNWeights (c : ConvConf) : ℕ :=
  c.geom.nKernels * c.geom.kx * c.geom.ky * c.geom.nch

/-- `Conv.get_weights_magnitude` (src/conv.py lines 85-101):
`9.0 / supposed_maxvle / (kx*ky*n_channels)` for real dtypes (1.0 in the
numerator for complex), divided by 3 when the filling is gaussian. -/
def convGetWeightsMagnitude (c : ConvConf) : ℚ :=
  let vle := (if c.isComplex then (1 : ℚ) else 9) / c.supposedMaxvle /
    ((c.geom.kx * c.geom.ky * c.geom.nch : ℕ) : ℚ)
  if c.weightsFilling = "gaussian" then vle / 3 else vle

/-- The weights stddev actually used to fill: the explicit override or
`min(get_weights_magnitude(), 0.05)` (src/conv.py lines 106-107). -/
def convUsedWeightsStddev (c : ConvConf) : ℚ :=
  c.weightsStddev.getD (min (convGetWeightsMagnitude c) (1/20))

/-- `bias_stddev` defaults to the weights stddev (src/conv.py lines
108-109). -/
def convUsedBiasStddev (c : ConvConf) : ℚ :=
  c.biasStddev.getD (convUsedWeightsStddev c)

/-- One filling-policy dispatch of `Conv.initialize` (src/conv.py lines
121-130 and 143-151): uniform and gaussian consume one random-fill call,
constant fills with the stddev value itself, anything else is a
`BadFormat`. -/
def convFillBuf (fillU fillN : ℕ → ℕ → ℚ → ℚ → List ℚ) (policy : String) (std : ℚ)
    (n rc : ℕ) : Option (List ℚ × ℕ) :=
  if policy = "uniform" then some (fillU rc n (-std) std, rc + 1)
  else if policy = "gaussian" then some (fillN rc n 0 std, rc + 1)
  else if policy = "constant" then some (List.replicate n std, rc)
  else none

/-- Fresh conv weights: policy fill then the optional transposed reshape
(src/conv.py lines 119-137). -/
def convFreshWeights (fillU fillN : ℕ → ℕ → ℚ → ℚ → List ℚ) (c : ConvConf) (rc : ℕ) :
    Option (List ℚ × ℕ) :=
  (convFillBuf fillU fillN c.weightsFilling (convUsedWeightsStddev c) (convNWeights c) rc).map
    fun pr => (if c.weightsTransposed then
        transposeFlat c.geom.nKernels (c.geom.kx * c.geom.ky * c.geom.nch) pr.1
      else pr.1, pr.2)

/-- Allocated output element count: `batch * ny * nx * n_kernels`, with the
batch doubled in the `unit_test` overflow-check mode (src/conv.py lines
153-162). -/
def convOutAllocLen (c : ConvConf) (unitTest : Bool) : ℕ :=
  (if unitTest then 2 * c.geom.batch else c.geom.batch) *
    convNy c.geom * convNx c.geom * c.geom.nKernels

/-- True (sliced-back) output element count. -/
def convOutLen (c : ConvConf) : ℕ :=
  c.geom.batch * convNy c.geom * convNx c.geom * c.geom.nKernels

/-- Output-buffer step of `Conv.initialize` (src/conv.py lines 155-179):
reallocate to zeros when the element count differs; in `unit_test` mode the
buffer is then sliced back to the true batch size. -/
def convInitFinish (c : ConvConf) (unitTest : Bool) (st : ConvBufs) :
    Option InitErr × ConvBufs :=
  let allocLen := convOutAllocLen c unitTest
  let oNeed := bufNeed st.output allocLen
  let o1 := if oNeed then List.replicate allocLen (0 : ℚ) else st.output.getD []
  let o2 := if unitTest then o1.take (convOutLen c) else o1
  (none, { st with output := some o2 })

/-- Bias step of `Conv.initialize` (src/conv.py lines 138-151): on
reallocation the buffer is first reset to zeros, so an invalid
`bias_filling` raises with the zero buffer already installed. -/
def convInitBias (fillU fillN : ℕ → ℕ → ℚ → ℚ → List ℚ) (c : ConvConf) (unitTest : Bool)
    (st : ConvBufs) : Option InitErr × ConvBufs :=
  if bufNeed st.bias c.geom.nKernels then
    match convFillBuf fillU fillN c.biasFilling (convUsedBiasStddev c) c.geom.nKernels
        st.randCalls with
    | none => (some .badFormat, { st with bias := some (List.replicate c.geom.nKernels (0 : ℚ)) })
    | some pr => convInitFinish c unitTest { st with bias := some pr.1, randCalls := pr.2 }
  else convInitFinish c unitTest st

/-- `Conv.initialize` buffer management (src/conv.py lines 103-179; the
OpenCL program build that follows is device-only).  On weight reallocation
the buffer is first reset to zeros (line 119), so an invalid
`weights_filling` raises `ErrBadFormat` with the fresh zero buffer already
installed and the bias/output steps never reached. -/
def convInitialize (fillU fillN : ℕ → ℕ → ℚ → ℚ → List ℚ) (c : ConvConf) (unitTest : Bool)
    (st : ConvBufs) : Option InitErr × ConvBufs :=
  if bufNeed st.weights (convNWeights c) then
    match convFreshWeights fillU fillN c st.randCalls with
    | none => (some .badFormat, { st with weights := some (List.replicate (convNWeights c) (0 : ℚ)) })
    | some pr => convInitBias fillU fillN c unitTest { st with weights := some pr.1, randCalls := pr.2 }
  else convInitBias fillU fillN c unitTest st

/-- `ConvTanh.initialize` (src/conv.py lines 325-328): runs
`Conv.initialize` and, on success, records `1.7159` as the output buffer's
`supposed_maxvle`. -/
def convTanhInitialize (fillU fillN : ℕ → ℕ → ℚ → ℚ → List ℚ) (c : ConvConf) (unitTest : Bool)
    (st : ConvBufs) : Option InitErr × ConvBufs :=
  match convInitialize fillU fillN c unitTest st with
  | (none, st1) => (none, { st1 with outputMaxvle := some (17159/10000) })
  | r => r

/-- The stddev formula asserted by claim C7 read in its stated order: the
magnitude heuristic value, capped to 0.05, then divided by 3. -/
def c7ClaimedStddev (c : ConvConf) : ℚ :=
  min ((if c.isComplex then (1 : ℚ) else 9) / c.supposedMaxvle /
    ((c.geom.kx * c.geom.ky * c.geom.nch : ℕ) : ℚ)) (1/20) / 3

/-- Deterministic stand-in for the random-fill collaborator: fills with the
upper bound (length-correct, used to instantiate theorems). -/
def fillHiVal : ℕ → ℕ → ℚ → ℚ → List ℚ := fun _ n _ hi => List.replicate n hi

/-- Concrete geometry whose first window lies entirely inside the virtual
padding on both axes (1×1 input, 1×1 kernel, padding (1,1,0,0)): the host
loop `break`s immediately. -/
def cexGeomBreak : ConvGeom :=
  { batch := 1, sy := 1, sx := 1, nch := 1, nKernels := 1, kx := 1, ky := 1,
    padL := 1, padT := 1, padR := 0, padB := 0, slideX := 1, slideY := 1 }

/-- Concrete geometry with a window empty on the vertical axis only
(1×1 input, 1×1 kernel, padding (0,1,0,0)): the guard still holds, so the
host loop computes a value for that cell. -/
def cexGeomHalfEmpty : ConvGeom :=
  { batch := 1, sy := 1, sx := 1, nch := 1, nKernels := 1, kx := 1, ky := 1,
    padL := 0, padT := 1, padR := 0, padB := 0, slideX := 1, slideY := 1 }

/-- Concrete unpadded 2×2 geometry: every window is fully inside the
input. -/
def wGeomPlain : ConvGeom :=
  { batch := 1, sy := 2, sx := 2, nch := 1, nKernels := 1, kx := 1, ky := 1,
    padL := 0, padT := 0, padR := 0, padB := 0, slideX := 1, slideY := 1 }

lemma listMapGetD {α β : Type} (l : List α) (f : α → β) (i : ℕ) (da : α) (db : β)
    (h : i < l.length) : (l.map f).getD i db = f (l.getD i da) := by
  rw [List.getD_eq_getElem _ _ (by simpa using h), List.getD_eq_getElem _ _ h]
  simp

lemma rangeMapGetD {β : Type} (n i : ℕ) (f : ℕ → β) (d : β) (h : i < n) :
    ((List.range n).map f).getD i d = f i := by
  rw [listMapGetD (List.range n) f i 0 d (by simpa using h)]
  rw [List.getD_eq_getElem _ _ (by simpa using h)]
  simp

lemma sumMapDiv (l : List ℚ) (s : ℚ) : (l.map (fun x => x / s)).sum = l.sum / s := by
  induction l with
  | nil => simp
  | cons x xs ih => simp [ih, add_div]

lemma transposeFlatLength (rows cols : ℕ) (l : List ℚ) :
    (transposeFlat rows cols l).length = rows * cols := by
  simp [transposeFlat]

/-- C6: after a softmax forward run, every entry of a sample row is
non-negative, the row sums to `1` (hence is within `1e-6` of `1.0`), and the
recorded `max_idx` entry is the argmax of the row's pre-softmax linear
output. -/
theorem c6_softmax_row (expF : ℚ → ℚ) (p : A2AIn) (i : ℕ)
    (hexp : ∀ x, 0 < expF x) (hb : i < p.batch) (hf : 0 < p.fanOut) :
    (∀ y ∈ (a2aSoftmaxCpuRun expF p).1.getD i [], 0 ≤ y) ∧
    |((a2aSoftmaxCpuRun expF p).1.getD i []).sum - 1| ≤ 1/1000000 ∧
    (a2aSoftmaxCpuRun expF p).2.getD i 0 = argmaxIdx ((a2aCpuRun p).getD i []) := by
  have hlen : (a2aCpuRun p).length = p.batch := by simp [a2aCpuRun]
  have h1 : (a2aSoftmaxCpuRun expF p).1.getD i [] =
      softmaxRowCpu expF ((a2aCpuRun p).getD i []) :=
    listMapGetD _ _ _ [] [] (by rw [hlen]; exact hb)
  have hrowEq : (a2aCpuRun p).getD i [] =
      (List.range p.fanOut).map fun o => a2aLinearCell p i o := by
    unfold a2aCpuRun
    exact rangeMapGetD _ _ _ _ hb
  have hrowNe : (a2aCpuRun p).getD i [] ≠ [] := by
    rw [hrowEq]
    intro hcon
    have := congrArg List.length hcon
    simp at this
    omega
  set row := (a2aCpuRun p).getD i [] with hrowDef
  set m := row.getD (argmaxIdx row) 0 with hm
  set e := row.map fun x => expF (x - m) with he
  have heNe : e ≠ [] := by
    intro hcon
    exact hrowNe (List.map_eq_nil_iff.mp hcon)
  have hePos : ∀ x ∈ e, 0 < x := by
    intro x hx
    obtain ⟨z, _, rfl⟩ := List.mem_map.mp hx
    exact hexp _
  have hSumPos : 0 < e.sum := List.sum_pos e hePos heNe
  have h2 : softmaxRowCpu expF row = e.map fun x => x / e.sum := by
    rw [softmaxRowCpu]
  refine ⟨?_, ?_, ?_⟩
  · intro y hy
    rw [h1, h2] at hy
    obtain ⟨x, hx, rfl⟩ := List.mem_map.mp hy
    exact div_nonneg (le_of_lt (hePos x hx)) (le_of_lt hSumPos)
  · rw [h1, h2, sumMapDiv, div_self (ne_of_gt hSumPos)]
    norm_num
  · exact listMapGetD _ _ _ [] 0 (by rw [hlen]; exact hb)

/-- Witness for C6 at a concrete 1×1 softmax layer with a concrete positive
exponential stand-in. -/
theorem c6_witness :
    (0 : ℚ) ≤ ((a2aSoftmaxCpuRun (fun _ => 1)
        ⟨1, 1, 1, fun _ _ => 1, fun _ _ => 1, fun _ => 0, false⟩).1.getD 0 []).getD 0 0 ∧
    |((a2aSoftmaxCpuRun (fun _ => 1)
        ⟨1, 1, 1, fun _ _ => 1, fun _ _ => 1, fun _ => 0, false⟩).1.getD 0 []).sum - 1|
      ≤ 1/1000000 ∧
    (a2aSoftmaxCpuRun (fun _ => 1)
        ⟨1, 1, 1, fun _ _ => 1, fun _ _ => 1, fun _ => 0, false⟩).2.getD 0 0 =
      argmaxIdx ((a2aCpuRun ⟨1, 1, 1, fun _ _ => 1, fun _ _ => 1, fun _ => 0, false⟩).getD 0 []) := by
  have h := c6_softmax_row (fun _ => 1)
    ⟨1, 1, 1, fun _ _ => 1, fun _ _ => 1, fun _ => 0, false⟩ 0
    (fun _ => one_pos) (by norm_num) (by norm_num)
  refine ⟨h.1 _ ?_, h.2.1, h.2.2⟩
  have hrow : (a2aSoftmaxCpuRun (fun _ => 1)
      ⟨1, 1, 1, fun _ _ => 1, fun _ _ => 1, fun _ => 0, false⟩).1.getD 0 [] = [1] := by
    norm_num [a2aSoftmaxCpuRun, a2aCpuRun, a2aLinearCell, softmaxRowCpu, argmaxIdx,
      List.range_succ]
  rw [hrow]
  norm_num

lemma bufNeedEqFalse {α : Type} {cur : Option (List α)} {n : ℕ} (h : bufNeed cur n = false) :
    ∃ v, cur = some v ∧ v.length = n := by
  cases cur with
  | none => simp [bufNeed] at h
  | some v =>
    refine ⟨v, rfl, ?_⟩
    simpa [bufNeed] using h

lemma a2aFreshWeightsLength (fillU : ℕ → ℕ → ℚ → ℚ → List ℚ) (kind : A2AKind) (c : A2AConf)
    (rc : ℕ) (hlen : ∀ r n lo hi, (fillU r n lo hi).length = n) :
    (a2aFreshWeights fillU kind c rc).length = a2aNWeights c := by
  unfold a2aFreshWeights
  by_cases ht : c.weightsTransposed <;>
    simp [ht, hlen, transposeFlatLength, a2aNWeights, Nat.mul_comm]

/-- C3 (counterexample): a softmax all-to-all layer with `fan_out = 1`
initializes without any BadFormat error — `All2AllSoftmax.initialize`
contains no fan-out check (src/all2all.py lines 279-301 have no raise
statement). -/
theorem c3_counterexample :
    (a2aSoftmaxInitializeE fillHiVal ⟨1, 2, 1, some 1, 1, false⟩
      ⟨none, none, none, none, none, 0⟩).1 = none ∧
    (⟨1, 2, 1, some 1, 1, false⟩ : A2AConf).outputShape ≤ 1 := by
  exact ⟨rfl, le_refl 1⟩

/-- C3 (amended): softmax all-to-all initialization performs no fan-out
validation at all: for every configuration — in particular `fan_out ≤ 1` —
it completes without error and leaves all four buffers allocated at their
required sizes. -/
theorem c3_softmax_init_completes (fillU : ℕ → ℕ → ℚ → ℚ → List ℚ) (c : A2AConf) (st : A2ABufs)
    (hlen : ∀ r n lo hi, (fillU r n lo hi).length = n) :
    (a2aSoftmaxInitializeE fillU c st).1 = none ∧
    ((a2aSoftmaxInitializeE fillU c st).2.weights.getD []).length = a2aNWeights c ∧
    ((a2aSoftmaxInitializeE fillU c st).2.bias.getD []).length = c.outputShape ∧
    ((a2aSoftmaxInitializeE fillU c st).2.output.getD []).length = c.batch * c.outputShape ∧
    ((a2aSoftmaxInitializeE fillU c st).2.maxIdx.getD []).length = c.batch := by
  refine ⟨rfl, ?_, ?_, ?_, ?_⟩
  · unfold a2aSoftmaxInitializeE a2aInitialize
    cases hw : bufNeed st.weights (a2aNWeights c) with
    | true => simp [hw, a2aFreshWeightsLength fillU .softmax c st.randCalls hlen]
    | false =>
      obtain ⟨v, hv, hvl⟩ := bufNeedEqFalse hw
      simp [hv, bufNeed, hvl]
  · unfold a2aSoftmaxInitializeE a2aInitialize
    cases hb : bufNeed st.bias c.outputShape with
    | true => simp [hb, hlen]
    | false =>
      obtain ⟨v, hv, hvl⟩ := bufNeedEqFalse hb
      simp [hb, hv, hvl]
  · unfold a2aSoftmaxInitializeE a2aInitialize
    cases ho : bufNeed st.output (c.batch * c.outputShape) with
    | true => simp [ho]
    | false =>
      obtain ⟨v, hv, hvl⟩ := bufNeedEqFalse ho
      simp [hv, bufNeed, hvl]
  · unfold a2aSoftmaxInitializeE a2aInitialize
    cases hm : st.maxIdx with
    | none => simp [hm]
    | some m0 =>
      by_cases hml : m0.length = c.batch <;> simp [hm, hml]

/-- C7 (counterexample): with `supposed_maxvle = 1`, a 1×1 kernel and one
channel, gaussian filling and no stddev override, the code uses
`min(9/3, 0.05) = 0.05`, while the claim's order of operations
(cap to 0.05, then divide by 3) would give `min(9, 0.05)/3 = 1/60`. -/
theorem c7_counterexample :
    convUsedWeightsStddev ⟨⟨1, 1, 1, 1, 1, 1, 1, 0, 0, 0, 0, 1, 1⟩, "gaussian", "gaussian",
      none, none, false, 1, false⟩ = 1/20 ∧
    c7ClaimedStddev ⟨⟨1, 1, 1, 1, 1, 1, 1, 0, 0, 0, 0, 1, 1⟩, "gaussian", "gaussian",
      none, none, false, 1, false⟩ = 1/60 ∧
    (1/20 : ℚ) ≠ 1/60 := by
  refine ⟨?_, ?_, by norm_num⟩ <;>
    norm_num [convUsedWeightsStddev, convGetWeightsMagnitude, c7ClaimedStddev]

/-- C7 (amended): for gaussian filling with no explicit override — on real
and complex dtypes alike — the stddev used to fill the weights is
`min(base/3, 0.05)` where `base = c/(supposed_max_input · kx · ky ·
n_channels)` with `c = 9` for real dtypes and `c = 1` for complex ones —
the division by 3 happens inside the magnitude heuristic, before the 0.05
cap. -/
theorem c7_gaussian_stddev (c : ConvConf)
    (hg : c.weightsFilling = "gaussian") (ho : c.weightsStddev = none) :
    convUsedWeightsStddev c =
      min (((if c.isComplex then (1 : ℚ) else 9) / c.supposedMaxvle /
        ((c.geom.kx * c.geom.ky * c.geom.nch : ℕ) : ℚ)) / 3) (1/20) := by
  simp [convUsedWeightsStddev, convGetWeightsMagnitude, hg, ho]

/-- Witness for C7 at the concrete configuration of the counterexample, for
a real and for a complex dtype. -/
theorem c7_witness :
    convUsedWeightsStddev ⟨⟨1, 1, 1, 1, 1, 1, 1, 0, 0, 0, 0, 1, 1⟩, "gaussian", "gaussian",
      none, none, false, 1, false⟩ =
      min (((if false then (1 : ℚ) else 9) / (1 : ℚ) / (((1 * 1 * 1 : ℕ) : ℚ))) / 3)
        (1/20) ∧
    convUsedWeightsStddev ⟨⟨1, 1, 1, 1, 1, 1, 1, 0, 0, 0, 0, 1, 1⟩, "gaussian", "gaussian",
      none, none, false, 1, true⟩ =
      min (((if true then (1 : ℚ) else 9) / (1 : ℚ) / (((1 * 1 * 1 : ℕ) : ℚ))) / 3)
        (1/20) :=
  ⟨c7_gaussian_stddev _ rfl rfl, c7_gaussian_stddev _ rfl rfl⟩

/-- C8 (counterexample): a fresh convolution layer initialized with the
unknown filling policy "foo" does raise BadFormat, but its weight buffer is
not unchanged: it has already been reallocated and zero-filled when the
error propagates (src/conv.py lines 117-130). -/
theorem c8_counterexample :
    (convInitialize fillHiVal fillHiVal
      ⟨⟨1, 1, 1, 1, 1, 1, 1, 0, 0, 0, 0, 1, 1⟩, "foo", "uniform", some 1, some 1, false, 1, false⟩
      false ⟨none, none, none, none, 0⟩).1 = some InitErr.badFormat ∧
    (convInitialize fillHiVal fillHiVal
      ⟨⟨1, 1, 1, 1, 1, 1, 1, 0, 0, 0, 0, 1, 1⟩, "foo", "uniform", some 1, some 1, false, 1, false⟩
      false ⟨none, none, none, none, 0⟩).2.weights = some [0] ∧
    (convInitialize fillHiVal fillHiVal
      ⟨⟨1, 1, 1, 1, 1, 1, 1, 0, 0, 0, 0, 1, 1⟩, "foo", "uniform", some 1, some 1, false, 1, false⟩
      false ⟨none, none, none, none, 0⟩).2.weights ≠
      (⟨none, none, none, none, 0⟩ : ConvBufs).weights := by
  refine ⟨?_, ?_, ?_⟩ <;>
    simp [convInitialize, convFreshWeights, convFillBuf, bufNeed, convNWeights,
      List.replicate]

/-- C8 (amended): when the weight buffer needs (re)allocation and the
weights filling policy is unrecognized, initialization fails with BadFormat,
but the zero-filled fresh weight buffer is retained on the layer (the bias
and output steps are never reached, so those buffers are unchanged). -/
theorem c8_invalid_filling (fillU fillN : ℕ → ℕ → ℚ → ℚ → List ℚ) (c : ConvConf)
    (unitTest : Bool) (st : ConvBufs)
    (hneed : bufNeed st.weights (convNWeights c) = true)
    (h1 : c.weightsFilling ≠ "uniform") (h2 : c.weightsFilling ≠ "gaussian")
    (h3 : c.weightsFilling ≠ "constant") :
    convInitialize fillU fillN c unitTest st =
      (some InitErr.badFormat,
        { st with weights := some (List.replicate (convNWeights c) 0) }) := by
  unfold convInitialize convFreshWeights convFillBuf
  simp [hneed, h1, h2, h3]

/-- Witness for C8 at the concrete "foo"-filled fresh layer. -/
theorem c8_witness :
    convInitialize fillHiVal fillHiVal
      ⟨⟨1, 1, 1, 1, 1, 1, 1, 0, 0, 0, 0, 1, 1⟩, "foo", "uniform", some 1, some 1, false, 1, false⟩
      false ⟨none, none, none, none, 0⟩ =
      (some InitErr.badFormat, ⟨some [0], none, none, none, 0⟩) :=
  c8_invalid_filling fillHiVal fillHiVal _ false _ (by decide) (by decide) (by decide) (by decide)

/-- C10: re-initializing with unchanged required weight and bias element
counts leaves the existing weight and bias arrays (and their contents)
untouched, and consumes no random numbers; stated for both the convolution
and the all-to-all layer. -/
theorem c10_same_shape_no_refill (fillU fillN fillU2 : ℕ → ℕ → ℚ → ℚ → List ℚ)
    (c : ConvConf) (unitTest : Bool) (st : ConvBufs) (w0 b0 : List ℚ)
    (kind : A2AKind) (c2 : A2AConf) (st2 : A2ABufs) (w2 b2 : List ℚ)
    (hw : st.weights = some w0) (hwl : w0.length = convNWeights c)
    (hb : st.bias = some b0) (hbl : b0.length = c.geom.nKernels)
    (hw2 : st2.weights = some w2) (hwl2 : w2.length = a2aNWeights c2)
    (hb2 : st2.bias = some b2) (hbl2 : b2.length = c2.outputShape) :
    (convInitialize fillU fillN c unitTest st).1 = none ∧
    (convInitialize fillU fillN c unitTest st).2.weights = some w0 ∧
    (convInitialize fillU fillN c unitTest st).2.bias = some b0 ∧
    (convInitialize fillU fillN c unitTest st).2.randCalls = st.randCalls ∧
    (a2aInitialize fillU2 kind c2 st2).weights = some w2 ∧
    (a2aInitialize fillU2 kind c2 st2).bias = some b2 ∧
    (a2aInitialize fillU2 kind c2 st2).randCalls = st2.randCalls := by
  unfold convInitialize convInitBias convInitFinish a2aInitialize
  simp [hw, hb, hw2, hb2, bufNeed, hwl, hbl, hwl2, hbl2]

/-- Witness for C10 at concrete matching-size buffers. -/
theorem c10_witness :
    (convInitialize fillHiVal fillHiVal
      ⟨⟨1, 1, 1, 1, 1, 1, 1, 0, 0, 0, 0, 1, 1⟩, "uniform", "uniform", some 1, some 1, false, 1,
        false⟩ false ⟨some [5], some [7], none, none, 3⟩).1 = none ∧
    (convInitialize fillHiVal fillHiVal
      ⟨⟨1, 1, 1, 1, 1, 1, 1, 0, 0, 0, 0, 1, 1⟩, "uniform", "uniform", some 1, some 1, false, 1,
        false⟩ false ⟨some [5], some [7], none, none, 3⟩).2.weights = some [5] ∧
    (convInitialize fillHiVal fillHiVal
      ⟨⟨1, 1, 1, 1, 1, 1, 1, 0, 0, 0, 0, 1, 1⟩, "uniform", "uniform", some 1, some 1, false, 1,
        false⟩ false ⟨some [5], some [7], none, none, 3⟩).2.bias = some [7] ∧
    (convInitialize fillHiVal fillHiVal
      ⟨⟨1, 1, 1, 1, 1, 1, 1, 0, 0, 0, 0, 1, 1⟩, "uniform", "uniform", some 1, some 1, false, 1,
        false⟩ false ⟨some [5], some [7], none, none, 3⟩).2.randCalls = 3 ∧
    (a2aInitialize fillHiVal .plain ⟨1, 2, 1, some 1, 1, false⟩
      ⟨some [4, 6], some [8], none, none, none, 2⟩).weights = some [4, 6] ∧
    (a2aInitialize fillHiVal .plain ⟨1, 2, 1, some 1, 1, false⟩
      ⟨some [4, 6], some [8], none, none, none, 2⟩).bias = some [8] ∧
    (a2aInitialize fillHiVal .plain ⟨1, 2, 1, some 1, 1, false⟩
      ⟨some [4, 6], some [8], none, none, none, 2⟩).randCalls = 2 :=
  c10_same_shape_no_refill fillHiVal fillHiVal fillHiVal _ false _ [5] [7] .plain _ _ [4, 6] [8]
    rfl (by decide) rfl (by decide) rfl (by decide) rfl (by decide)

lemma convFillBufValid (fillU fillN : ℕ → ℕ → ℚ → ℚ → List ℚ) (policy : String) (std : ℚ)
    (n rc : ℕ)
    (hU : ∀ r n lo hi, (fillU r n lo hi).length = n)
    (hN : ∀ r n lo hi, (fillN r n lo hi).length = n)
    (hp : policy = "uniform" ∨ policy = "gaussian" ∨ policy = "constant") :
    ∃ v rc1, convFillBuf fillU fillN policy std n rc = some (v, rc1) ∧ v.length = n := by
  rcases hp with h | h | h <;> subst h <;> simp [convFillBuf, hU, hN]

lemma convFreshWeightsValid (fillU fillN : ℕ → ℕ → ℚ → ℚ → List ℚ) (c : ConvConf) (rc : ℕ)
    (hU : ∀ r n lo hi, (fillU r n lo hi).length = n)
    (hN : ∀ r n lo hi, (fillN r n lo hi).length = n)
    (hp : c.weightsFilling = "uniform" ∨ c.weightsFilling = "gaussian" ∨
      c.weightsFilling = "constant") :
    ∃ v rc1, convFreshWeights fillU fillN c rc = some (v, rc1) ∧
      v.length = convNWeights c := by
  obtain ⟨v, rc1, hv, hvl⟩ := convFillBufValid fillU fillN c.weightsFilling
    (convUsedWeightsStddev c) (convNWeights c) rc hU hN hp
  refine ⟨if c.weightsTransposed then
      transposeFlat c.geom.nKernels (c.geom.kx * c.geom.ky * c.geom.nch) v else v, rc1, ?_, ?_⟩
  · unfold convFreshWeights
    rw [hv]
    rfl
  · by_cases ht : c.weightsTransposed <;>
      simp [ht, transposeFlatLength, hvl, convNWeights, Nat.mul_assoc]

/-- C9: re-initializing with changed required element counts reallocates the
weight, bias and output buffers at the new sizes, with freshly generated
contents (the old arrays are dropped); stated for both the convolution and
the all-to-all layer. -/
theorem c9_realloc_new_shape (fillU fillN fillU2 : ℕ → ℕ → ℚ → ℚ → List ℚ)
    (c : ConvConf) (st : ConvBufs) (kind : A2AKind) (c2 : A2AConf) (st2 : A2ABufs)
    (hU : ∀ r n lo hi, (fillU r n lo hi).length = n)
    (hN : ∀ r n lo hi, (fillN r n lo hi).length = n)
    (hU2 : ∀ r n lo hi, (fillU2 r n lo hi).length = n)
    (hwf : c.weightsFilling = "uniform" ∨ c.weightsFilling = "gaussian" ∨
      c.weightsFilling = "constant")
    (hbf : c.biasFilling = "uniform" ∨ c.biasFilling = "gaussian" ∨
      c.biasFilling = "constant")
    (hwn : bufNeed st.weights (convNWeights c) = true)
    (hbn : bufNeed st.bias c.geom.nKernels = true)
    (hon : bufNeed st.output (convOutAllocLen c false) = true)
    (hwn2 : bufNeed st2.weights (a2aNWeights c2) = true)
    (hbn2 : bufNeed st2.bias c2.outputShape = true)
    (hon2 : bufNeed st2.output (c2.batch * c2.outputShape) = true) :
    (convInitialize fillU fillN c false st).1 = none ∧
    ((convInitialize fillU fillN c false st).2.weights.getD []).length = convNWeights c ∧
    ((convInitialize fillU fillN c false st).2.bias.getD []).length = c.geom.nKernels ∧
    (convInitialize fillU fillN c false st).2.output =
      some (List.replicate (convOutLen c) 0) ∧
    (convInitialize fillU fillN c false st).2.weights =
      Option.map Prod.fst (convFreshWeights fillU fillN c st.randCalls) ∧
    (a2aInitialize fillU2 kind c2 st2).weights =
      some (a2aFreshWeights fillU2 kind c2 st2.randCalls) ∧
    ((a2aInitialize fillU2 kind c2 st2).weights.getD []).length = a2aNWeights c2 ∧
    (a2aInitialize fillU2 kind c2 st2).bias =
      some (fillU2 (st2.randCalls + 1) c2.outputShape (-(a2aUsedAmplitude kind c2))
        (a2aUsedAmplitude kind c2)) ∧
    (a2aInitialize fillU2 kind c2 st2).output =
      some (List.replicate (c2.batch * c2.outputShape) 0) := by
  obtain ⟨wv, rc1, hfw, hwvl⟩ := convFreshWeightsValid fillU fillN c st.randCalls hU hN hwf
  obtain ⟨bv, rc2, hfb, hbvl⟩ := convFillBufValid fillU fillN c.biasFilling
    (convUsedBiasStddev c) c.geom.nKernels rc1 hU hN hbf
  have hout : convOutAllocLen c false = convOutLen c := by
    simp [convOutAllocLen, convOutLen]
  rw [hout] at hon
  unfold convInitialize convInitBias convInitFinish
  unfold a2aInitialize
  rw [hfw]
  simp only [hwn, hbn, hwn2, hbn2, hon2, if_true, hout]
  simp [hfb, hon, hout, hwvl, hbvl,
    a2aFreshWeightsLength fillU2 kind c2 st2.randCalls hU2]

/-- Witness for C9: a fresh convolution layer and a fresh all-to-all layer
(all buffers absent) are allocated at the required sizes with fresh fill
contents. -/
theorem c9_witness :
    (convInitialize fillHiVal fillHiVal
      ⟨⟨1, 1, 1, 1, 1, 1, 1, 0, 0, 0, 0, 1, 1⟩, "uniform", "uniform", some 1, some 1, false, 1,
        false⟩ false ⟨none, none, none, none, 0⟩).1 = none ∧
    ((convInitialize fillHiVal fillHiVal
      ⟨⟨1, 1, 1, 1, 1, 1, 1, 0, 0, 0, 0, 1, 1⟩, "uniform", "uniform", some 1, some 1, false, 1,
        false⟩ false ⟨none, none, none, none, 0⟩).2.weights.getD []).length =
      convNWeights ⟨⟨1, 1, 1, 1, 1, 1, 1, 0, 0, 0, 0, 1, 1⟩, "uniform", "uniform", some 1,
        some 1, false, 1, false⟩ ∧
    ((convInitialize fillHiVal fillHiVal
      ⟨⟨1, 1, 1, 1, 1, 1, 1, 0, 0, 0, 0, 1, 1⟩, "uniform", "uniform", some 1, some 1, false, 1,
        false⟩ false ⟨none, none, none, none, 0⟩).2.bias.getD []).length = 1 ∧
    (convInitialize fillHiVal fillHiVal
      ⟨⟨1, 1, 1, 1, 1, 1, 1, 0, 0, 0, 0, 1, 1⟩, "uniform", "uniform", some 1, some 1, false, 1,
        false⟩ false ⟨none, none, none, none, 0⟩).2.output =
      some (List.replicate (convOutLen ⟨⟨1, 1, 1, 1, 1, 1, 1, 0, 0, 0, 0, 1, 1⟩, "uniform",
        "uniform", some 1, some 1, false, 1, false⟩) 0) ∧
    (convInitialize fillHiVal fillHiVal
      ⟨⟨1, 1, 1, 1, 1, 1, 1, 0, 0, 0, 0, 1, 1⟩, "uniform", "uniform", some 1, some 1, false, 1,
        false⟩ false ⟨none, none, none, none, 0⟩).2.weights =
      Option.map Prod.fst (convFreshWeights fillHiVal fillHiVal
        ⟨⟨1, 1, 1, 1, 1, 1, 1, 0, 0, 0, 0, 1, 1⟩, "uniform", "uniform", some 1, some 1, false, 1,
          false⟩ 0) ∧
    (a2aInitialize fillHiVal .plain ⟨1, 2, 1, some 1, 1, false⟩
      ⟨none, none, none, none, none, 0⟩).weights =
      some (a2aFreshWeights fillHiVal .plain ⟨1, 2, 1, some 1, 1, false⟩ 0) ∧
    ((a2aInitialize fillHiVal .plain ⟨1, 2, 1, some 1, 1, false⟩
      ⟨none, none, none, none, none, 0⟩).weights.getD []).length =
      a2aNWeights ⟨1, 2, 1, some 1, 1, false⟩ ∧
    (a2aInitialize fillHiVal .plain ⟨1, 2, 1, some 1, 1, false⟩
      ⟨none, none, none, none, none, 0⟩).bias =
      some (fillHiVal (0 + 1) 1 (-(a2aUsedAmplitude .plain ⟨1, 2, 1, some 1, 1, false⟩))
        (a2aUsedAmplitude .plain ⟨1, 2, 1, some 1, 1, false⟩)) ∧
    (a2aInitialize fillHiVal .plain ⟨1, 2, 1, some 1, 1, false⟩
      ⟨none, none, none, none, none, 0⟩).output = some (List.replicate (1 * 1) 0) :=
  c9_realloc_new_shape fillHiVal fillHiVal fillHiVal _ _ .plain _ _
    (by intro r n lo hi; simp [fillHiVal]) (by intro r n lo hi; simp [fillHiVal])
    (by intro r n lo hi; simp [fillHiVal]) (Or.inl rfl) (Or.inl rfl)
    rfl rfl rfl rfl rfl rfl

/-- C5 (counterexample): running the all-to-all tanh layer's initialize on a
layer whose output has no recorded supposed max leaves it unrecorded —
nothing in src/all2all.py ever assigns `1.7159` to the output buffer (the
constant only enters through a downstream layer's `input_maxvle` default). -/
theorem c5_counterexample :
    (a2aInitialize fillHiVal .tanh ⟨1, 2, 1, some 1, 1, false⟩
      ⟨none, none, none, none, none, 0⟩).outputMaxvle = none ∧
    (none : Option ℚ) ≠ some (17159/10000) := by
  exact ⟨rfl, by simp⟩

/-- C5 (amended): every tanh forward output element equals
`1.7159 · tanh(0.6666 · z)` with `z` the pre-activation linear result, for
the all-to-all and the convolution host paths alike; `ConvTanh.initialize`
records `1.7159` as the output's supposed max value, while the all-to-all
tanh layer's initialize leaves the output's supposed max value untouched. -/
theorem c5_tanh_formula (tanhF tf ef lf : ℚ → ℚ) (p : A2AIn) (s o : ℕ)
    (g : ConvGeom) (w : ℕ → ℕ → ℚ) (bias : ℕ → ℚ) (inp : ℕ → ℕ → ℕ → ℕ → ℚ) (b k i j : ℕ)
    (fillU fillN fillU2 : ℕ → ℕ → ℚ → ℚ → List ℚ) (c : ConvConf) (unitTest : Bool)
    (st : ConvBufs) (c2 : A2AConf) (st2 : A2ABufs)
    (hs : s < p.batch) (ho : o < p.fanOut)
    (hsucc : (convInitialize fillU fillN c unitTest st).1 = none) :
    ((a2aTanhCpuRun tanhF p).getD s []).getD o 0 =
      (17159/10000) * tanhF ((6666/10000) * a2aLinearCell p s o) ∧
    convCellOut g .tanh tf ef lf w bias inp b k i j =
      (17159/10000) * tf ((6666/10000) * (convCellDot g w inp b k i j + bias k)) ∧
    (convTanhInitialize fillU fillN c unitTest st).2.outputMaxvle = some (17159/10000) ∧
    (a2aInitialize fillU2 .tanh c2 st2).outputMaxvle = st2.outputMaxvle := by
  refine ⟨?_, ?_, ?_, ?_⟩
  · have h1 : (a2aTanhCpuRun tanhF p).getD s [] =
        ((a2aCpuRun p).getD s []).map fun v => tanhF (v * (6666/10000)) * (17159/10000) :=
      listMapGetD _ _ _ [] [] (by simp [a2aCpuRun, hs])
    have h2 : (a2aCpuRun p).getD s [] = (List.range p.fanOut).map fun o => a2aLinearCell p s o := by
      unfold a2aCpuRun
      exact rangeMapGetD _ _ _ _ hs
    rw [h1, h2, List.map_map]
    have h3 := rangeMapGetD p.fanOut o
      ((fun v => tanhF (v * (6666/10000)) * (17159/10000)) ∘ fun o => a2aLinearCell p s o)
      0 ho
    rw [h3]
    simp [Function.comp, mul_comm]
  · unfold convCellOut convActApply
    ring_nf
  · unfold convTanhInitialize
    cases hres : convInitialize fillU fillN c unitTest st with
    | mk e st1 =>
      rw [hres] at hsucc
      simp only at hsucc
      subst hsucc
      rfl
  · rfl

/-- Witness for C5 at concrete layers (identity stand-ins for the
transcendental primitives). -/
theorem c5_witness :
    ((a2aTanhCpuRun (fun x => x)
        ⟨1, 1, 1, fun _ _ => 1, fun _ _ => 1, fun _ => 0, false⟩).getD 0 []).getD 0 0 =
      (17159/10000) * ((6666/10000) *
        a2aLinearCell ⟨1, 1, 1, fun _ _ => 1, fun _ _ => 1, fun _ => 0, false⟩ 0 0) ∧
    convCellOut wGeomPlain .tanh (fun x => x) (fun x => x) (fun x => x) (fun _ _ => 1)
        (fun _ => 1) (fun _ _ _ _ => 1) 0 0 0 0 =
      (17159/10000) * ((6666/10000) *
        (convCellDot wGeomPlain (fun _ _ => 1) (fun _ _ _ _ => 1) 0 0 0 0 + 1)) ∧
    (convTanhInitialize fillHiVal fillHiVal
      ⟨⟨1, 1, 1, 1, 1, 1, 1, 0, 0, 0, 0, 1, 1⟩, "uniform", "uniform", some 1, some 1, false, 1,
        false⟩ false ⟨none, none, none, none, 0⟩).2.outputMaxvle = some (17159/10000) ∧
    (a2aInitialize fillHiVal .tanh ⟨1, 2, 1, some 1, 1, false⟩
      ⟨none, none, none, none, none, 7⟩).outputMaxvle = none :=
  c5_tanh_formula (fun x => x) (fun x => x) (fun x => x) (fun x => x)
    ⟨1, 1, 1, fun _ _ => 1, fun _ _ => 1, fun _ => 0, false⟩ 0 0
    wGeomPlain (fun _ _ => 1) (fun _ => 1) (fun _ _ _ _ => 1) 0 0 0 0
    fillHiVal fillHiVal fillHiVal
    ⟨⟨1, 1, 1, 1, 1, 1, 1, 0, 0, 0, 0, 1, 1⟩, "uniform", "uniform", some 1, some 1, false, 1,
      false⟩ false ⟨none, none, none, none, 0⟩ ⟨1, 2, 1, some 1, 1, false⟩
    ⟨none, none, none, none, none, 7⟩ (by decide) (by decide)
    (by simp [convInitialize, convInitBias, convInitFinish, convFreshWeights, convFillBuf,
      bufNeed])

lemma convScanValSome (g : ConvGeom) (act : ConvAct) (tf ef lf : ℚ → ℚ) (w : ℕ → ℕ → ℚ)
    (bias : ℕ → ℚ) (inp : ℕ → ℕ → ℕ → ℕ → ℚ) (b k : ℕ) :
    ∀ (l : List (ℕ × ℕ)) (q : ℕ × ℕ) (v : ℚ),
      convScanVal g act tf ef lf w bias inp b k l q = some v →
      v = convCellOut g act tf ef lf w bias inp b k q.1 q.2 := by
  intro l
  induction l with
  | nil => intro q v h; simp [convScanVal] at h
  | cons p rest ih =>
    intro q v h
    obtain ⟨i, j⟩ := p
    unfold convScanVal at h
    by_cases hg : 0 < cntI g i ∨ 0 < cntJ g j
    · rw [if_pos hg] at h
      by_cases hq : q = (i, j)
      · rw [if_pos hq] at h
        subst hq
        exact (Option.some_inj.mp h).symm
      · rw [if_neg hq] at h
        exact ih q v h
    · rw [if_neg hg] at h
      exact absurd h (by simp)


lemma convScanPosCons (g : ConvGeom) (act : ConvAct) (tf ef lf : ℚ → ℚ) (w : ℕ → ℕ → ℚ)
    (bias : ℕ → ℚ) (inp : ℕ → ℕ → ℕ → ℕ → ℚ) (b k i j : ℕ) (rest : List (ℕ × ℕ))
    (out : ℕ → ℕ → ℕ → ℕ → ℚ) :
    convScanPos g act tf ef lf w bias inp b k ((i, j) :: rest) out =
      if 0 < cntI g i ∨ 0 < cntJ g j then
        convScanPos g act tf ef lf w bias inp b k rest
          (fun b' i' j' k' =>
            if b' = b ∧ i' = i ∧ j' = j ∧ k' = k then
              convCellOut g act tf ef lf w bias inp b k i j
            else out b' i' j' k')
      else out := rfl

lemma convScanValCons (g : ConvGeom) (act : ConvAct) (tf ef lf : ℚ → ℚ) (w : ℕ → ℕ → ℚ)
    (bias : ℕ → ℚ) (inp : ℕ → ℕ → ℕ → ℕ → ℚ) (b k i j : ℕ) (rest : List (ℕ × ℕ))
    (q : ℕ × ℕ) :
    convScanVal g act tf ef lf w bias inp b k ((i, j) :: rest) q =
      if 0 < cntI g i ∨ 0 < cntJ g j then
        if q = (i, j) then some (convCellOut g act tf ef lf w bias inp b k i j)
        else convScanVal g act tf ef lf w bias inp b k rest q
      else none := rfl

lemma convScanPosChar (g : ConvGeom) (act : ConvAct) (tf ef lf : ℚ → ℚ) (w : ℕ → ℕ → ℚ)
    (bias : ℕ → ℚ) (inp : ℕ → ℕ → ℕ → ℕ → ℚ) (b k : ℕ) :
    ∀ (l : List (ℕ × ℕ)) (out : ℕ → ℕ → ℕ → ℕ → ℚ) (b' i' j' k' : ℕ),
      convScanPos g act tf ef lf w bias inp b k l out b' i' j' k' =
        if b' = b ∧ k' = k then
          (convScanVal g act tf ef lf w bias inp b k l (i', j')).getD (out b' i' j' k')
        else out b' i' j' k' := by
  intro l
  induction l with
  | nil =>
    intro out b' i' j' k'
    simp [convScanPos, convScanVal]
  | cons p rest ih =>
    obtain ⟨i, j⟩ := p
    intro out b' i' j' k'
    rw [convScanPosCons, convScanValCons]
    by_cases hg : 0 < cntI g i ∨ 0 < cntJ g j
    · rw [if_pos hg, if_pos hg, ih]
      by_cases hbk : b' = b ∧ k' = k
      · rw [if_pos hbk, if_pos hbk]
        by_cases hq : (i', j') = (i, j)
        · rw [if_pos hq]
          have hi : i' = i := (Prod.ext_iff.mp hq).1
          have hj : j' = j := (Prod.ext_iff.mp hq).2
          have hwrite : (if b' = b ∧ i' = i ∧ j' = j ∧ k' = k then
              convCellOut g act tf ef lf w bias inp b k i j
              else out b' i' j' k') = convCellOut g act tf ef lf w bias inp b k i j :=
            if_pos ⟨hbk.1, hi, hj, hbk.2⟩
          rw [hwrite]
          cases hsv : convScanVal g act tf ef lf w bias inp b k rest (i', j') with
          | none => simp
          | some v =>
            have := convScanValSome g act tf ef lf w bias inp b k rest (i', j') v hsv
            simp [this, hi, hj]
        · rw [if_neg hq]
          have hwrite : (if b' = b ∧ i' = i ∧ j' = j ∧ k' = k then
              convCellOut g act tf ef lf w bias inp b k i j
              else out b' i' j' k') = out b' i' j' k' := by
            rw [if_neg]
            intro hcon
            exact hq (by rw [Prod.ext_iff]; exact ⟨hcon.2.1, hcon.2.2.1⟩)
          rw [hwrite]
      · rw [if_neg hbk, if_neg hbk]
        have hwrite : (if b' = b ∧ i' = i ∧ j' = j ∧ k' = k then
            convCellOut g act tf ef lf w bias inp b k i j
            else out b' i' j' k') = out b' i' j' k' := by
          rw [if_neg]
          intro hcon
          exact hbk ⟨hcon.1, hcon.2.2.2⟩
        rw [hwrite]
    · rw [if_neg hg, if_neg hg]
      by_cases hbk : b' = b ∧ k' = k
      · rw [if_pos hbk]
        simp
      · rw [if_neg hbk]


lemma convKernelFoldChar (g : ConvGeom) (act : ConvAct) (tf ef lf : ℚ → ℚ) (w : ℕ → ℕ → ℚ)
    (bias : ℕ → ℚ) (inp : ℕ → ℕ → ℕ → ℕ → ℚ) (b : ℕ) :
    ∀ (ks : List ℕ) (out : ℕ → ℕ → ℕ → ℕ → ℚ) (b' i' j' k' : ℕ),
      (ks.foldl (fun o k => convScanPos g act tf ef lf w bias inp b k (convPositions g) o) out)
          b' i' j' k' =
        if b' = b ∧ k' ∈ ks then
          (convScanVal g act tf ef lf w bias inp b k' (convPositions g) (i', j')).getD
            (out b' i' j' k')
        else out b' i' j' k' := by
  intro ks
  induction ks with
  | nil =>
    intro out b' i' j' k'
    simp
  | cons k0 ks ih =>
    intro out b' i' j' k'
    rw [List.foldl_cons, ih, convScanPosChar]
    by_cases hb : b' = b <;> by_cases hkk : k' = k0 <;> by_cases hk : k' ∈ ks <;>
      simp only [hb, hkk, hk, List.mem_cons, true_and, false_and, and_true, and_false,
        if_true, if_false, eq_self_iff_true, true_or, or_true, or_false, false_or,
        if_pos, not_true, not_false_iff] <;>
      try rfl
    all_goals
      cases hsv : convScanVal g act tf ef lf w bias inp b k0 (convPositions g) (i', j') <;>
        simp [hsv]

lemma convKernelPassChar (g : ConvGeom) (act : ConvAct) (tf ef lf : ℚ → ℚ) (w : ℕ → ℕ → ℚ)
    (bias : ℕ → ℚ) (inp : ℕ → ℕ → ℕ → ℕ → ℚ) (b : ℕ) (out : ℕ → ℕ → ℕ → ℕ → ℚ)
    (b' i' j' k' : ℕ) :
    convKernelPass g act tf ef lf w bias inp b out b' i' j' k' =
      if b' = b ∧ k' < g.nKernels then
        (convScanVal g act tf ef lf w bias inp b k' (convPositions g) (i', j')).getD
          (out b' i' j' k')
      else out b' i' j' k' := by
  unfold convKernelPass
  rw [convKernelFoldChar]
  simp [List.mem_range]

lemma convBatchFoldChar (g : ConvGeom) (act : ConvAct) (tf ef lf : ℚ → ℚ) (w : ℕ → ℕ → ℚ)
    (bias : ℕ → ℚ) (inp : ℕ → ℕ → ℕ → ℕ → ℚ) :
    ∀ (bs : List ℕ) (out : ℕ → ℕ → ℕ → ℕ → ℚ) (b' i' j' k' : ℕ),
      (bs.foldl (fun o bb => convKernelPass g act tf ef lf w bias inp bb o) out) b' i' j' k' =
        if b' ∈ bs ∧ k' < g.nKernels then
          (convScanVal g act tf ef lf w bias inp b' k' (convPositions g) (i', j')).getD
            (out b' i' j' k')
        else out b' i' j' k' := by
  intro bs
  induction bs with
  | nil =>
    intro out b' i' j' k'
    simp
  | cons b0 bs ih =>
    intro out b' i' j' k'
    rw [List.foldl_cons, ih, convKernelPassChar]
    by_cases hb : b' = b0 <;> by_cases hbs : b' ∈ bs <;> by_cases hk : k' < g.nKernels <;>
      simp only [hb, hbs, hk, List.mem_cons, true_and, false_and, and_true, and_false,
        if_true, if_false, eq_self_iff_true, true_or, or_true, or_false, false_or] <;>
      try rfl
    all_goals
      cases hsv : convScanVal g act tf ef lf w bias inp b0 k' (convPositions g) (i', j') <;>
        simp [hsv]

lemma convCpuRunChar (g : ConvGeom) (act : ConvAct) (tf ef lf : ℚ → ℚ) (w : ℕ → ℕ → ℚ)
    (bias : ℕ → ℚ) (inp : ℕ → ℕ → ℕ → ℕ → ℚ) (out0 : ℕ → ℕ → ℕ → ℕ → ℚ)
    (b i j k : ℕ) :
    convCpuRun g act tf ef lf w bias inp out0 b i j k =
      if b < g.batch ∧ 0 < g.nch ∧ k < g.nKernels then
        (convScanVal g act tf ef lf w bias inp b k (convPositions g) (i, j)).getD
          (out0 b i j k)
      else out0 b i j k := by
  unfold convCpuRun
  rw [convBatchFoldChar]
  have hmem : (b ∈ (List.range g.batch).flatMap fun bb => (List.range g.nch).map fun _ => bb) ↔
      b < g.batch ∧ 0 < g.nch := by
    constructor
    · intro hmm
      obtain ⟨bb, hbb, hx⟩ := List.mem_flatMap.mp hmm
      obtain ⟨cc, hcc, hbc⟩ := List.mem_map.mp hx
      cases hbc
      exact ⟨List.mem_range.mp hbb, Nat.lt_of_le_of_lt (Nat.zero_le _) (List.mem_range.mp hcc)⟩
    · rintro ⟨hblt, hch⟩
      exact List.mem_flatMap.mpr ⟨b, List.mem_range.mpr hblt,
        List.mem_map.mpr ⟨0, List.mem_range.mpr hch, rfl⟩⟩
  by_cases hc : b < g.batch ∧ 0 < g.nch ∧ k < g.nKernels
  · rw [if_pos ⟨hmem.mpr ⟨hc.1, hc.2.1⟩, hc.2.2⟩, if_pos hc]
  · rw [if_neg, if_neg hc]
    intro hcon
    exact hc ⟨(hmem.mp hcon.1).1, (hmem.mp hcon.1).2, hcon.2⟩

lemma rangeSplit (n k : ℕ) (h : k < n) :
    List.range n = List.range k ++ k :: ((List.range (n - k - 1)).map fun t => k + 1 + t) := by
  have hn : n = (k + 1) + (n - k - 1) := by omega
  conv_lhs => rw [hn]
  rw [List.range_add, List.range_succ, List.append_assoc, List.singleton_append]

lemma idxLtOfRowLt (i' j' i j nx : ℕ) (hi : i' < i) (hj : j' < nx) :
    i' * nx + j' < i * nx + j := by
  have h1 : i' * nx + j' < (i' + 1) * nx := by
    rw [Nat.succ_mul]
    omega
  have h2 : (i' + 1) * nx ≤ i * nx := Nat.mul_le_mul_right nx hi
  omega

lemma convPositionsSplit (g : ConvGeom) (i j : ℕ) (hi : i < convNy g) (hj : j < convNx g) :
    ∃ l₁ l₂, convPositions g = l₁ ++ (i, j) :: l₂ ∧
      ∀ p ∈ l₁, p.1 < convNy g ∧ p.2 < convNx g ∧
        p.1 * convNx g + p.2 < i * convNx g + j := by
  refine ⟨((List.range i).flatMap fun i' => (List.range (convNx g)).map fun j' => (i', j')) ++
      ((List.range j).map fun j' => (i, j')),
    (((List.range (convNx g - j - 1)).map fun t => j + 1 + t).map fun j' => (i, j')) ++
      (((List.range (convNy g - i - 1)).map fun t => i + 1 + t).flatMap
        fun i' => (List.range (convNx g)).map fun j' => (i', j')), ?_, ?_⟩
  · unfold convPositions
    rw [rangeSplit (convNy g) i hi, List.flatMap_append, List.flatMap_cons,
      rangeSplit (convNx g) j hj, List.map_append, List.map_cons]
    simp only [List.append_assoc, List.cons_append]
  · intro p hp
    rcases List.mem_append.mp hp with hp1 | hp2
    · obtain ⟨i', hi', hp'⟩ := List.mem_flatMap.mp hp1
      obtain ⟨j', hj', rfl⟩ := List.mem_map.mp hp'
      have hi'lt : i' < i := List.mem_range.mp hi'
      have hj'lt : j' < convNx g := List.mem_range.mp hj'
      exact ⟨lt_trans hi'lt hi, hj'lt, idxLtOfRowLt i' j' i j (convNx g) hi'lt hj'lt⟩
    · obtain ⟨j', hj', rfl⟩ := List.mem_map.mp hp2
      have hj'lt : j' < j := List.mem_range.mp hj'
      exact ⟨hi, lt_trans hj'lt hj, by show i * convNx g + j' < i * convNx g + j; omega⟩

lemma convScanValAppendHit (g : ConvGeom) (act : ConvAct) (tf ef lf : ℚ → ℚ) (w : ℕ → ℕ → ℚ)
    (bias : ℕ → ℚ) (inp : ℕ → ℕ → ℕ → ℕ → ℚ) (b k i j : ℕ) :
    ∀ (l₁ : List (ℕ × ℕ)) (l₂ : List (ℕ × ℕ)),
      (∀ p ∈ l₁, 0 < cntI g p.1 ∨ 0 < cntJ g p.2) →
      (∀ p ∈ l₁, p ≠ (i, j)) →
      (0 < cntI g i ∨ 0 < cntJ g j) →
      convScanVal g act tf ef lf w bias inp b k (l₁ ++ (i, j) :: l₂) (i, j) =
        some (convCellOut g act tf ef lf w bias inp b k i j) := by
  intro l₁
  induction l₁ with
  | nil =>
    intro l₂ _ _ hg
    rw [List.nil_append, convScanValCons, if_pos hg, if_pos rfl]
  | cons p rest ih =>
    intro l₂ h1 h2 hg
    obtain ⟨pi, pj⟩ := p
    rw [List.cons_append, convScanValCons,
      if_pos (h1 (pi, pj) (List.mem_cons_self _ _)),
      if_neg (fun hcon => h2 (pi, pj) (List.mem_cons_self _ _) hcon.symm)]
    exact ih l₂ (fun q hq => h1 q (List.mem_cons_of_mem _ hq))
      (fun q hq => h2 q (List.mem_cons_of_mem _ hq)) hg

lemma convScanValBreak (g : ConvGeom) (act : ConvAct) (tf ef lf : ℚ → ℚ) (w : ℕ → ℕ → ℚ)
    (bias : ℕ → ℚ) (inp : ℕ → ℕ → ℕ → ℕ → ℚ) (b k : ℕ) (p₀ : ℕ × ℕ) (q : ℕ × ℕ) :
    ∀ (l₁ : List (ℕ × ℕ)) (l₂ : List (ℕ × ℕ)),
      (∀ p ∈ l₁, 0 < cntI g p.1 ∨ 0 < cntJ g p.2) →
      ¬(0 < cntI g p₀.1 ∨ 0 < cntJ g p₀.2) →
      q ∉ l₁ →
      convScanVal g act tf ef lf w bias inp b k (l₁ ++ p₀ :: l₂) q = none := by
  intro l₁
  induction l₁ with
  | nil =>
    intro l₂ _ hb _
    obtain ⟨pi, pj⟩ := p₀
    rw [List.nil_append, convScanValCons, if_neg hb]
  | cons p rest ih =>
    intro l₂ h1 hb hq
    obtain ⟨pi, pj⟩ := p
    rw [List.cons_append, convScanValCons,
      if_pos (h1 (pi, pj) (List.mem_cons_self _ _)),
      if_neg (fun hcon => hq (by rw [hcon]; exact List.mem_cons_self _ _))]
    exact ih l₂ (fun r hr => h1 r (List.mem_cons_of_mem _ hr)) hb
      (fun hcon => hq (List.mem_cons_of_mem _ hcon))

lemma convScanValFull (g : ConvGeom) (act : ConvAct) (tf ef lf : ℚ → ℚ) (w : ℕ → ℕ → ℚ)
    (bias : ℕ → ℚ) (inp : ℕ → ℕ → ℕ → ℕ → ℚ) (b k i j : ℕ)
    (hi : i < convNy g) (hj : j < convNx g)
    (hall : ∀ i' j', i' < convNy g → j' < convNx g →
      i' * convNx g + j' ≤ i * convNx g + j → 0 < cntI g i' ∨ 0 < cntJ g j') :
    convScanVal g act tf ef lf w bias inp b k (convPositions g) (i, j) =
      some (convCellOut g act tf ef lf w bias inp b k i j) := by
  obtain ⟨l₁, l₂, hsplit, hmem⟩ := convPositionsSplit g i j hi hj
  rw [hsplit]
  apply convScanValAppendHit
  · intro p hp
    obtain ⟨h1, h2, h3⟩ := hmem p hp
    exact hall p.1 p.2 h1 h2 (le_of_lt h3)
  · intro p hp hcon
    obtain ⟨_, _, h3⟩ := hmem p hp
    rw [hcon] at h3
    exact absurd h3 (by simp)
  · exact hall i j hi hj (le_refl _)

lemma convScanValBroken (g : ConvGeom) (act : ConvAct) (tf ef lf : ℚ → ℚ) (w : ℕ → ℕ → ℚ)
    (bias : ℕ → ℚ) (inp : ℕ → ℕ → ℕ → ℕ → ℚ) (b k i j : ℕ)
    (hbrk : ∃ i' j', i' < convNy g ∧ j' < convNx g ∧
      i' * convNx g + j' ≤ i * convNx g + j ∧ ¬(0 < cntI g i' ∨ 0 < cntJ g j')) :
    convScanVal g act tf ef lf w bias inp b k (convPositions g) (i, j) = none := by
  classical
  have hex : ∃ n, n ≤ i * convNx g + j ∧ ∃ i' j', i' < convNy g ∧ j' < convNx g ∧
      i' * convNx g + j' = n ∧ ¬(0 < cntI g i' ∨ 0 < cntJ g j') := by
    obtain ⟨i', j', h1, h2, h3, h4⟩ := hbrk
    exact ⟨i' * convNx g + j', h3, i', j', h1, h2, rfl, h4⟩
  obtain ⟨hk1, i₀, j₀, hi₀, hj₀, hidx, hne⟩ := Nat.find_spec hex
  obtain ⟨l₁, l₂, hsplit, hmem⟩ := convPositionsSplit g i₀ j₀ hi₀ hj₀
  rw [hsplit]
  apply convScanValBreak
  · intro p hp
    obtain ⟨hp1, hp2, hp3⟩ := hmem p hp
    by_contra hcon
    have hlt : p.1 * convNx g + p.2 < Nat.find hex := by omega
    exact Nat.find_min hex hlt ⟨by omega, p.1, p.2, hp1, hp2, rfl, hcon⟩
  · exact hne
  · intro hcon
    obtain ⟨_, _, hp3⟩ := hmem (i, j) hcon
    have hp3' : i * convNx g + j < i₀ * convNx g + j₀ := hp3
    omega

lemma specCntEq (fullStart pad dim klen : ℕ) :
    specCnt ((fullStart : ℤ) - pad) klen dim = axisCnt fullStart klen pad dim := by
  unfold specCnt specHiZ specLoZ axisCnt clipHi clipLo
  omega

lemma specLoToNat (fullStart pad dim klen : ℕ) (h : 0 < axisCnt fullStart klen pad dim) :
    (specLoZ ((fullStart : ℤ) - pad)).toNat = clipLo fullStart pad dim := by
  unfold specLoZ
  unfold axisCnt clipHi clipLo at h
  unfold clipLo
  omega

lemma specOffToNat (fullStart pad dim klen t : ℕ) (h : t < axisCnt fullStart klen pad dim) :
    (specLoZ ((fullStart : ℤ) - pad) + t - ((fullStart : ℤ) - pad)).toNat =
      cutLo fullStart pad dim + t := by
  unfold specLoZ
  unfold axisCnt clipHi clipLo at h
  unfold cutLo clipLo
  omega

lemma specActApplyEq (act : ConvAct) (tf ef lf : ℚ → ℚ) (v : ℚ) :
    specActApply act tf ef lf v = convActApply act tf ef lf v := by
  cases act with
  | linear => rfl
  | tanh =>
    unfold specActApply convActApply
    ring_nf
  | relu =>
    unfold specActApply convActApply
    by_cases h : 15 < v
    · simp [h]
    · simp [h, add_comm]

lemma specConvCellEq (g : ConvGeom) (w : ℕ → ℕ → ℚ) (inp : ℕ → ℕ → ℕ → ℕ → ℚ)
    (b k i j : ℕ) :
    specConvCell g w inp b k i j = convCellDot g w inp b k i j := by
  unfold specConvCell convCellDot cntI cntJ
  rw [show (i : ℤ) * (g.slideY : ℤ) = ((i * g.slideY : ℕ) : ℤ) by push_cast; ring,
    show (j : ℤ) * (g.slideX : ℤ) = ((j * g.slideX : ℕ) : ℤ) by push_cast; ring,
    specCntEq (i * g.slideY) g.padT g.sy g.ky, specCntEq (j * g.slideX) g.padL g.sx g.kx]
  apply Finset.sum_congr rfl
  intro t ht
  apply Finset.sum_congr rfl
  intro u hu
  apply Finset.sum_congr rfl
  intro c _
  have ht' := Finset.mem_range.mp ht
  have hu' := Finset.mem_range.mp hu
  rw [specLoToNat (i * g.slideY) g.padT g.sy g.ky (by omega),
    specLoToNat (j * g.slideX) g.padL g.sx g.kx (by omega),
    specOffToNat (i * g.slideY) g.padT g.sy g.ky t ht',
    specOffToNat (j * g.slideX) g.padL g.sx g.kx u hu']

lemma memConvPositions (g : ConvGeom) (i j : ℕ) :
    (i, j) ∈ convPositions g ↔ i < convNy g ∧ j < convNx g := by
  simp only [convPositions, List.mem_flatMap, List.mem_map, List.mem_range, Prod.ext_iff]
  constructor
  · rintro ⟨i', hi', j', hj', hij, hji⟩
    exact ⟨hij ▸ hi', hji ▸ hj'⟩
  · rintro ⟨hi, hj⟩
    exact ⟨i, hi, j, hj, rfl, rfl⟩

/-- C4 (amended): in the host convolution loop, for a fixed batch element
and kernel, an output position is written with the activated clipped dot
product as long as no position at or before it (in row-major scan order) has
an input intersection empty on both axes; as soon as some position at or
before it is empty on both axes, the scan has stopped and the cell keeps its
previous value.  A position empty on one axis only still gets a value (the
guard is a disjunction). -/
theorem c4_break_semantics (g : ConvGeom) (act : ConvAct) (tf ef lf : ℚ → ℚ)
    (w : ℕ → ℕ → ℚ) (bias : ℕ → ℚ) (inp : ℕ → ℕ → ℕ → ℕ → ℚ)
    (out0 : ℕ → ℕ → ℕ → ℕ → ℚ) (b i j k : ℕ)
    (hb : b < g.batch) (hch : 0 < g.nch) (hk : k < g.nKernels)
    (hi : i < convNy g) (hj : j < convNx g) :
    ((∀ i' j', i' < convNy g → j' < convNx g →
        i' * convNx g + j' ≤ i * convNx g + j → posNonEmpty g i' j') →
      convCpuRun g act tf ef lf w bias inp out0 b i j k =
        convCellOut g act tf ef lf w bias inp b k i j) ∧
    ((∃ i' j', i' < convNy g ∧ j' < convNx g ∧
        i' * convNx g + j' ≤ i * convNx g + j ∧ ¬posNonEmpty g i' j') →
      convCpuRun g act tf ef lf w bias inp out0 b i j k = out0 b i j k) := by
  constructor
  · intro hall
    rw [convCpuRunChar, if_pos ⟨hb, hch, hk⟩,
      convScanValFull g act tf ef lf w bias inp b k i j hi hj
        (fun i' j' h1 h2 h3 => hall i' j' h1 h2 h3)]
    rfl
  · intro hbrk
    rw [convCpuRunChar, if_pos ⟨hb, hch, hk⟩,
      convScanValBroken g act tf ef lf w bias inp b k i j hbrk]
    rfl

/-- Witness for C4: on the unpadded 2×2 geometry every position is written
with the dot product; on the fully-padded-corner geometry the first position
breaks the scan and the last cell keeps its initial value. -/
theorem c4_witness :
    convCpuRun wGeomPlain .linear (fun x => x) (fun x => x) (fun x => x) (fun _ _ => 1)
        (fun _ => 5) (fun _ _ _ _ => 1) (fun _ _ _ _ => 0) 0 0 0 0 =
      convCellOut wGeomPlain .linear (fun x => x) (fun x => x) (fun x => x) (fun _ _ => 1)
        (fun _ => 5) (fun _ _ _ _ => 1) 0 0 0 0 ∧
    convCpuRun cexGeomBreak .linear (fun x => x) (fun x => x) (fun x => x) (fun _ _ => 1)
        (fun _ => 5) (fun _ _ _ _ => 1) (fun _ _ _ _ => 0) 0 1 1 0 = 0 := by
  constructor
  · exact (c4_break_semantics wGeomPlain .linear (fun x => x) (fun x => x) (fun x => x)
      (fun _ _ => 1) (fun _ => 5) (fun _ _ _ _ => 1) (fun _ _ _ _ => 0) 0 0 0 0
      (by decide) (by decide) (by decide) (by decide) (by decide)).1 (by
        intro i' j' h1 h2 h3
        have hnx : convNx wGeomPlain = 2 := by decide
        rw [hnx] at h3
        have hz : i' = 0 ∧ j' = 0 := by omega
        rw [hz.1, hz.2]
        decide)
  · exact (c4_break_semantics cexGeomBreak .linear (fun x => x) (fun x => x) (fun x => x)
      (fun _ _ => 1) (fun _ => 5) (fun _ _ _ _ => 1) (fun _ _ _ _ => 0) 0 1 1 0
      (by decide) (by decide) (by decide) (by decide) (by decide)).2
      ⟨0, 0, by decide, by decide, by decide, by decide⟩

/-- C4 (counterexample): with a 1×1 input, 1×1 kernel and padding
(0,1,0,0), window (0,0) has an empty intersection on the vertical axis but a
non-empty one on the horizontal axis; the claim says such a position is
skipped, but the host loop computes a value for it (the empty-axis dot
product `0` plus the bias `5`), overwriting the initial `0`. -/
theorem c4_counterexample :
    cntI cexGeomHalfEmpty 0 = 0 ∧
    0 < cntJ cexGeomHalfEmpty 0 ∧
    convCpuRun cexGeomHalfEmpty .linear (fun x => x) (fun x => x) (fun x => x)
      (fun _ _ => 1) (fun _ => 5) (fun _ _ _ _ => 1) (fun _ _ _ _ => 0) 0 0 0 0 = 5 ∧
    (5 : ℚ) ≠ 0 := by
  refine ⟨by decide, by decide, ?_, by norm_num⟩
  rw [convCpuRunChar, if_pos (by decide)]
  have hpos : convPositions cexGeomHalfEmpty = [(0, 0), (1, 0)] := by decide
  rw [hpos, convScanValCons, if_pos (by decide), if_pos rfl]
  show convCellOut cexGeomHalfEmpty .linear (fun x => x) (fun x => x) (fun x => x)
    (fun _ _ => 1) (fun _ => 5) (fun _ _ _ _ => 1) 0 0 0 0 = 5
  unfold convCellOut convActApply convCellDot
  rw [show cntI cexGeomHalfEmpty 0 = 0 from by decide]
  simp

/-- C1 (amended): in the exact-arithmetic model, the host and (spec-modelled)
accelerator forward passes produce identical outputs — hence agree within
any tolerance — for every all-to-all activation unconditionally, and for the
convolution at every output cell provided no window of the geometry lies
inside the virtual padding on both axes (so the host loop never takes its
break branch). -/
theorem c1_host_accel_agree (p : A2AIn) (tanhF expF : ℚ → ℚ)
    (g : ConvGeom) (act : ConvAct) (tf ef lf : ℚ → ℚ) (w : ℕ → ℕ → ℚ) (bias : ℕ → ℚ)
    (inp : ℕ → ℕ → ℕ → ℕ → ℚ) (out0 : ℕ → ℕ → ℕ → ℕ → ℚ) (b i j k : ℕ)
    (hne : ∀ q ∈ convPositions g, posNonEmpty g q.1 q.2)
    (hch : 0 < g.nch) (hb : b < g.batch) (hi : i < convNy g) (hj : j < convNx g)
    (hk : k < g.nKernels) :
    a2aCpuRun p = a2aSpecGpuLinear p ∧
    a2aTanhCpuRun tanhF p = a2aSpecGpuTanh tanhF p ∧
    a2aSoftmaxCpuRun expF p = a2aSpecGpuSoftmax expF p ∧
    convCpuRun g act tf ef lf w bias inp out0 b i j k =
      specConvGpuRun g act tf ef lf w bias inp out0 b i j k := by
  have hlin : a2aCpuRun p = a2aSpecGpuLinear p := rfl
  refine ⟨hlin, ?_, ?_, ?_⟩
  · unfold a2aTanhCpuRun a2aSpecGpuTanh
    rw [← hlin]
    have hfg : (fun v => tanhF (v * (6666/10000)) * (17159/10000)) =
        fun v : ℚ => (17159/10000) * tanhF ((6666/10000) * v) := by
      funext v
      ring_nf
    rw [hfg]
  · unfold a2aSoftmaxCpuRun a2aSpecGpuSoftmax
    rw [← hlin]
    have hrow : softmaxRowCpu expF = specSoftmaxRow expF := by
      funext row
      unfold softmaxRowCpu specSoftmaxRow
      rw [List.map_map]
      rfl
    rw [hrow]
  · rw [convCpuRunChar, if_pos ⟨hb, hch, hk⟩,
      convScanValFull g act tf ef lf w bias inp b k i j hi hj
        (fun i' j' h1 h2 _ => hne (i', j') ((memConvPositions g i' j').mpr ⟨h1, h2⟩))]
    unfold specConvGpuRun
    rw [if_pos ⟨hb, hi, hj, hk⟩, specActApplyEq, specConvCellEq]
    rfl

/-- C1 (counterexample): on the 1×1 input with 1×1 kernel and padding
(1,1,1→0,0): the first window sits entirely inside the padding on both axes,
the host loop breaks immediately and leaves the whole output at its initial
`0`, while the spec-modelled accelerator defines cell (1,1) as
`input·weight + bias = 2`; the outputs differ by `2 > 1e-4`. -/
theorem c1_counterexample :
    convCpuRun cexGeomBreak .linear (fun x => x) (fun x => x) (fun x => x)
      (fun _ _ => 1) (fun _ => 1) (fun _ _ _ _ => 1) (fun _ _ _ _ => 0) 0 1 1 0 = 0 ∧
    specConvGpuRun cexGeomBreak .linear (fun x => x) (fun x => x) (fun x => x)
      (fun _ _ => 1) (fun _ => 1) (fun _ _ _ _ => 1) (fun _ _ _ _ => 0) 0 1 1 0 = 2 ∧
    ¬(|(0 : ℚ) - 2| ≤ 1/10000) := by
  refine ⟨?_, ?_, by rw [abs_of_nonpos] <;> norm_num⟩
  · rw [convCpuRunChar, if_pos (by decide)]
    have hpos : convPositions cexGeomBreak = [(0, 0), (0, 1), (1, 0), (1, 1)] := by decide
    rw [hpos, convScanValCons, if_neg (by decide)]
    rfl
  · unfold specConvGpuRun
    rw [if_pos (by decide)]
    rw [specActApplyEq, specConvCellEq]
    show convActApply .linear _ _ _ (convCellDot cexGeomBreak (fun _ _ => 1)
      (fun _ _ _ _ => 1) 0 0 1 1 + 1) = 2
    unfold convActApply convCellDot
    rw [show cntI cexGeomBreak 1 = 1 from by decide,
      show cntJ cexGeomBreak 1 = 1 from by decide]
    show (∑ _t ∈ Finset.range 1, ∑ _u ∈ Finset.range 1, ∑ _c ∈ Finset.range 1,
      (1 : ℚ) * 1) + 1 = 2
    norm_num

/-- Witness for C1 at a concrete all-to-all layer and the unpadded 2×2
convolution geometry. -/
theorem c1_witness :
    a2aCpuRun ⟨1, 1, 1, fun _ _ => 1, fun _ _ => 1, fun _ => 0, false⟩ =
      a2aSpecGpuLinear ⟨1, 1, 1, fun _ _ => 1, fun _ _ => 1, fun _ => 0, false⟩ ∧
    a2aTanhCpuRun (fun _ => 1) ⟨1, 1, 1, fun _ _ => 1, fun _ _ => 1, fun _ => 0, false⟩ =
      a2aSpecGpuTanh (fun _ => 1) ⟨1, 1, 1, fun _ _ => 1, fun _ _ => 1, fun _ => 0, false⟩ ∧
    a2aSoftmaxCpuRun (fun _ => 1) ⟨1, 1, 1, fun _ _ => 1, fun _ _ => 1, fun _ => 0, false⟩ =
      a2aSpecGpuSoftmax (fun _ => 1) ⟨1, 1, 1, fun _ _ => 1, fun _ _ => 1, fun _ => 0, false⟩ ∧
    convCpuRun wGeomPlain .linear (fun _ => 1) (fun _ => 1) (fun _ => 1) (fun _ _ => 1)
        (fun _ => 0) (fun _ _ _ _ => 1) (fun _ _ _ _ => 0) 0 0 0 0 =
      specConvGpuRun wGeomPlain .linear (fun _ => 1) (fun _ => 1) (fun _ => 1) (fun _ _ => 1)
        (fun _ => 0) (fun _ _ _ _ => 1) (fun _ _ _ _ => 0) 0 0 0 0 :=
  c1_host_accel_agree ⟨1, 1, 1, fun _ _ => 1, fun _ _ => 1, fun _ => 0, false⟩
    (fun _ => 1) (fun _ => 1) wGeomPlain .linear (fun _ => 1) (fun _ => 1) (fun _ => 1)
    (fun _ _ => 1) (fun _ => 0) (fun _ _ _ _ => 1) (fun _ _ _ _ => 0) 0 0 0 0
    (by decide) (by decide) (by decide) (by decide) (by decide) (by decide)

set_option maxHeartbeats 2000000 in
lemma gdErrHFixture : ∀ y, y < 5 → ∀ x, x < 5 →
    gdErrH gdFixGeom gdFixWeights gdFixErrY 0 y x 0 = (gdFixT.getD y []).getD x 0 := by
  intro y hy x hx
  have hny : convNy gdFixGeom = 3 := by decide
  have hnx : convNx gdFixGeom = 3 := by decide
  simp only [gdErrH, hny, hnx]
  interval_cases y <;> interval_cases x <;>
    norm_num [gdFixGeom, gdFixWeights, gdFixErrY, gdFixT, gdFixWeightsList, gdFixErrYList,
      Finset.sum_range_succ, show Int.toNat 0 = 0 from rfl, show Int.toNat 1 = 1 from rfl,
      show Int.toNat 2 = 2 from rfl, show Int.toNat 3 = 3 from rfl,
      show Int.toNat 4 = 4 from rfl]

set_option maxHeartbeats 2000000 in
lemma gdPatchFixture : ∀ p, p < 9 → ∀ m, m < 9 →
    gdPatch gdFixGeom gdFixInput 0 p m = (gdFixA.getD p []).getD m 0 := by
  intro p hp m hm
  have hnx : convNx gdFixGeom = 3 := by decide
  simp only [gdPatch, hnx]
  interval_cases p <;> interval_cases m <;>
    simp [gdFixGeom, gdFixInput, gdFixInputList, gdFixA]

/-- C2: on the literal no-padding fixture of `test_gd_conv.py` (input 1×5×5,
2 kernels of 3×3, stride 1), the spec-modelled backward pass reproduces the
published `err_h` table exactly (hence within `1e-4`), and for every
learning rate and weight decay the updated weights and bias equal the
test's expected values `weights + (−(lr/batch)·errᵗ·a − lr·λ·weights)` and
`bias + (−(lr/batch)·Σ err_y)` built from the literal patch matrix `a`
(column sums of `err_y` being 10 and 14). -/
theorem c2_gd_conv_fixture (lr lam : ℚ) (k m y x : ℕ)
    (hk : k < 2) (hm : m < 9) (hy : y < 5) (hx : x < 5) :
    gdErrH gdFixGeom gdFixWeights gdFixErrY 0 y x 0 = (gdFixT.getD y []).getD x 0 ∧
    |gdErrH gdFixGeom gdFixWeights gdFixErrY 0 y x 0 - (gdFixT.getD y []).getD x 0| ≤
      1/10000 ∧
    gdWeightsUpd gdFixGeom gdFixInput gdFixErrY gdFixWeights lr lam k m =
      gdFixWeights k m + (-(lr / 1) * (∑ p ∈ Finset.range 9,
        gdFixErrY 0 p k * (gdFixA.getD p []).getD m 0) - (lr * lam) * gdFixWeights k m) ∧
    gdBiasUpd gdFixGeom gdFixErrY gdFixBias lr k =
      gdFixBias k + (-(lr / 1) * (([10, 14] : List ℚ).getD k 0)) := by
  have herr := gdErrHFixture y hy x hx
  refine ⟨herr, by rw [herr]; simp, ?_, ?_⟩
  · unfold gdWeightsUpd gdGradWeights
    rw [show gdFixGeom.batch = 1 from rfl,
      show convNy gdFixGeom * convNx gdFixGeom = 9 from by decide,
      Finset.sum_range_one, show ((1 : ℕ) : ℚ) = 1 from by norm_num]
    have hsum : (∑ p ∈ Finset.range 9, gdFixErrY 0 p k * gdPatch gdFixGeom gdFixInput 0 p m) =
        ∑ p ∈ Finset.range 9, gdFixErrY 0 p k * (gdFixA.getD p []).getD m 0 :=
      Finset.sum_congr rfl fun p hp => by
        rw [gdPatchFixture p (Finset.mem_range.mp hp) m hm]
    rw [hsum]
  · unfold gdBiasUpd
    rw [show gdFixGeom.batch = 1 from rfl,
      show convNy gdFixGeom * convNx gdFixGeom = 9 from by decide,
      Finset.sum_range_one, show ((1 : ℕ) : ℚ) = 1 from by norm_num]
    have hS : (∑ p ∈ Finset.range 9, gdFixErrY 0 p k) = ([10, 14] : List ℚ).getD k 0 := by
      interval_cases k <;>
        norm_num [gdFixErrY, gdFixErrYList, Finset.sum_range_succ]
    rw [hS]

/-- Witness for C2 at the top-left cell, first kernel, first weight entry,
unit learning rate and zero decay. -/
theorem c2_witness :
    gdErrH gdFixGeom gdFixWeights gdFixErrY 0 0 0 0 = (gdFixT.getD 0 []).getD 0 0 ∧
    |gdErrH gdFixGeom gdFixWeights gdFixErrY 0 0 0 0 - (gdFixT.getD 0 []).getD 0 0| ≤
      1/10000 ∧
    gdWeightsUpd gdFixGeom gdFixInput gdFixErrY gdFixWeights 1 0 0 0 =
      gdFixWeights 0 0 + (-((1 : ℚ) / 1) * (∑ p ∈ Finset.range 9,
        gdFixErrY 0 p 0 * (gdFixA.getD p []).getD 0 0) - ((1 : ℚ) * 0) * gdFixWeights 0 0) ∧
    gdBiasUpd gdFixGeom gdFixErrY gdFixBias 1 0 =
      gdFixBias 0 + (-((1 : ℚ) / 1) * (([10, 14] : List ℚ).getD 0 0)) :=
  c2_gd_conv_fixture 1 0 0 0 0 0 (by decide) (by decide) (by decide) (by decide)

/-- Witness for C3 at a concrete softmax layer with `fan_out = 1`. -/
theorem c3_witness :
    (a2aSoftmaxInitializeE fillHiVal ⟨1, 2, 1, some 1, 1, false⟩
      ⟨none, none, none, none, none, 0⟩).1 = none ∧
    ((a2aSoftmaxInitializeE fillHiVal ⟨1, 2, 1, some 1, 1, false⟩
      ⟨none, none, none, none, none, 0⟩).2.weights.getD []).length =
      a2aNWeights ⟨1, 2, 1, some 1, 1, false⟩ ∧
    ((a2aSoftmaxInitializeE fillHiVal ⟨1, 2, 1, some 1, 1, false⟩
      ⟨none, none, none, none, none, 0⟩).2.bias.getD []).length = 1 ∧
    ((a2aSoftmaxInitializeE fillHiVal ⟨1, 2, 1, some 1, 1, false⟩
      ⟨none, none, none, none, none, 0⟩).2.output.getD []).length = 1 * 1 ∧
    ((a2aSoftmaxInitializeE fillHiVal ⟨1, 2, 1, some 1, 1, false⟩
      ⟨none, none, none, none, none, 0⟩).2.maxIdx.getD []).length = 1 :=
  c3_softmax_init_completes fillHiVal ⟨1, 2, 1, some 1, 1, false⟩
    ⟨none, none, none, none, none, 0⟩ (by intro r n lo hi; simp [fillHiVal])
